import Mathlib

/-!
Verification development for the image tile cache of `mcwebchunk`
(`cache.go`).  The Go source is shallowly embedded: the actor loop
`imageCacheProcessor` is split into one pure Lean function per `select`
case, machine state (the resident map `imageCache`, the waiters table
`ioreadwaiting`, the shared `*image.RGBA` buffers) is passed explicitly,
and every channel interaction is recorded as an event.  Pointers to pixel
buffers are modelled as indices into an explicit heap so that the source's
aliasing (map entries and in-flight tasks sharing one buffer) is kept.
Wall-clock `time.Time` values are modelled as `Nat` ticks; `time.Now()`
is the `now` argument threaded into each step.
-/

set_option autoImplicit false
set_option maxRecDepth 8192

namespace MCWebChunk

/-! ## Pixels and rasters (`image.RGBA`, `image/draw`) -/

/-- An 8-bit RGBA pixel `(r, g, b, a)`. -/
abbrev Pix := Nat × Nat × Nat × Nat

/-- The zero `color.RGBA{}`: fully transparent. -/
def transparentPix : Pix := (0, 0, 0, 0)

/-- Alpha component of a pixel. -/
def pixA (p : Pix) : Nat := p.2.2.2

/-- One channel of Porter-Duff source-over-destination exactly as
`image/draw` computes it for an `*image.RGBA` source: the source channel
and alpha are widened to 16 bits by `·0x101`, the destination scale is
`a = (0xffff − sα·0x101)·0x101`, and the 16-bit result
`d·a/0xffff + s·0x101` is truncated back to 8 bits by `>> 8`. -/
def pixOverChan (d8 s8 sa8 : Nat) : Nat :=
  (d8 * ((0xffff - sa8 * 0x101) * 0x101) / 0xffff + s8 * 0x101) / 256

/-- Porter-Duff source-over-destination at 8 bits (`image/draw`'s `Over`
operator), channel-wise via `pixOverChan`. -/
def pixOver (d s : Pix) : Pix :=
  (pixOverChan d.1 s.1 (pixA s),
   pixOverChan d.2.1 s.2.1 (pixA s),
   pixOverChan d.2.2.1 s.2.2.1 (pixA s),
   pixOverChan (pixA d) (pixA s) (pixA s))

/-- An `image.RGBA` value: bounds `Rect(0, 0, w, h)` plus pixel contents.
All rasters made by `cache.go` have `Min = (0,0)`, so bounds are just a
width and a height and pixels are indexed by `Nat` coordinates. -/
structure Raster where
  w : Nat
  h : Nat
  pix : Nat → Nat → Pix

/-- `image.NewRGBA(image.Rect(0, 0, w, h))`: all pixels zero. -/
def newRGBA (w h : Nat) : Raster :=
  { w := w, h := h, pix := fun _ _ => transparentPix }

/-- `copyImage` (cache.go): a fresh raster with the same bounds and pixels. -/
def copyImage (img : Raster) : Raster :=
  { w := img.w, h := img.h, pix := fun x y => img.pix x y }

/-- `draw.Draw(dst, Rect(x0,y0,x1,y1), src, Point(spx,spy), draw.Src)`:
inside the rectangle (clipped to both images' bounds) the destination
pixel is replaced by the corresponding source pixel. -/
def drawSrc (dst : Raster) (x0 y0 x1 y1 : Nat) (src : Raster) (spx spy : Nat) : Raster :=
  { dst with pix := fun x y =>
      if x0 ≤ x ∧ x < x1 ∧ y0 ≤ y ∧ y < y1 ∧ x < dst.w ∧ y < dst.h ∧
         x - x0 + spx < src.w ∧ y - y0 + spy < src.h then
        src.pix (x - x0 + spx) (y - y0 + spy)
      else dst.pix x y }

/-- `draw.Draw(dst, Rect(x0,y0,x1,y1), src, Point(spx,spy), draw.Over)`:
like `drawSrc` but the source pixel is composed over the destination. -/
def drawOver (dst : Raster) (x0 y0 x1 y1 : Nat) (src : Raster) (spx spy : Nat) : Raster :=
  { dst with pix := fun x y =>
      if x0 ≤ x ∧ x < x1 ∧ y0 ≤ y ∧ y < y1 ∧ x < dst.w ∧ y < dst.h ∧
         x - x0 + spx < src.w ∧ y - y0 + spy < src.h then
        pixOver (dst.pix x y) (src.pix (x - x0 + spx) (y - y0 + spy))
      else dst.pix x y }

/-! ## Constants and coordinate helpers (cache.go lines 41-77) -/

/-- `imageCacheMaxCache = 512`: the soft resident-entry cap `C`. -/
def imageCacheMaxCache : Nat := 512

/-- `imageCacheStorageLevel = 5`: the storage zoom level `L`. -/
def imageCacheStorageLevel : Nat := 5

/-- `powarr = []int{1, 2, 4, ..., 4096}`. -/
def powarr : List Int := [1, 2, 4, 8, 16, 32, 64, 128, 256, 512, 1024, 2048, 4096]

/-- `powarr[s]` for the (nonnegative) zoom levels the cache indexes with.
Go would panic on a negative or out-of-range index; the model is only
applied at the in-range indices the program uses. -/
def powAt (s : Int) : Int := powarr.getD s.toNat 0

/-- `icAT(cx, cz) = (cx >> L, cz >> L)`: arithmetic right shift by the
storage level, i.e. floor division by `2^L`. -/
def icAT (cx cz : Int) : Int × Int :=
  (Int.fdiv cx (2 ^ imageCacheStorageLevel), Int.fdiv cz (2 ^ imageCacheStorageLevel))

/-- `icIN(cx, cz) = (cx & (powarr[L]-1), cz & (powarr[L]-1))`: masking by
`2^L − 1`, i.e. nonnegative remainder mod `2^L`. -/
def icIN (cx cz : Int) : Int × Int :=
  (Int.fmod cx (2 ^ imageCacheStorageLevel), Int.fmod cz (2 ^ imageCacheStorageLevel))

/-! ## Keys, tasks, cache entries -/

/-- `imageLoc`: the tile key. -/
structure ImageLoc where
  world : String
  dimension : String
  layer : String
  s : Int
  x : Int
  z : Int
deriving DecidableEq, Repr

/-- `cachedImage`: a resident entry.  `imgRef` is the `*image.RGBA`
pointer, modelled as an index into the actor's raster heap;
`syncedToDisk = false` is the dirty state. -/
structure CachedImage where
  imgRef : Nat
  syncedToDisk : Bool
  lastUse : Nat
deriving DecidableEq, Repr

/-- An I/O pool task (`imageTask` without its reply channel): `img = none`
requests a read, `img = some r` requests a write of raster `r`. -/
structure IOTask where
  loc : ImageLoc
  img : Option Raster

/-! ## The on-disk store and `cacheLoad` -/

/-- State of the PNG file for one key: missing, present, or undecodable. -/
inductive DiskFile where
  | absent
  | file (r : Raster)
  | corrupt

/-- The filesystem, keyed by the path components `(world, dim, layer, s, x, z)`
that `cacheGetFilename` stamps into the path. -/
def Disk := ImageLoc → DiskFile

/-- Error results of `cacheLoad`: `os.ErrNotExist` versus a decode failure. -/
inductive LoadErr where
  | notExist
  | decodeFailed
deriving DecidableEq, Repr

/-- `cacheLoad(world, dim, render, s, x, z)`: open and decode the PNG.
A missing file yields `os.ErrNotExist`; an undecodable file yields a
decode error (the source also removes the corrupt file, which no claim
touches and is not modelled). -/
def cacheLoad (disk : Disk) (world dim render : String) (s x z : Int) :
    Except LoadErr Raster :=
  match disk { world := world, dimension := dim, layer := render, s := s, x := x, z := z } with
  | .absent => .error .notExist
  | .file r => .ok r
  | .corrupt => .error .decodeFailed

/-! ## Resident map and waiters table as association lists -/

/-- The resident map `imageCache : map[imageLoc]cachedImage`. -/
abbrev ResidentMap := List (ImageLoc × CachedImage)

/-- Map lookup `m[k]`. -/
def mfind (m : ResidentMap) (k : ImageLoc) : Option CachedImage :=
  match m with
  | [] => none
  | (k', v) :: rest => if k' = k then some v else mfind rest k

/-- Map store `m[k] = v`: replace in place if present, else append. -/
def minsert (m : ResidentMap) (k : ImageLoc) (v : CachedImage) : ResidentMap :=
  match m with
  | [] => [(k, v)]
  | (k', v') :: rest => if k' = k then (k', v) :: rest else (k', v') :: minsert rest k v

/-- Map delete `delete(m, k)` (a no-op when `k` is absent, as in Go). -/
def merase (m : ResidentMap) (k : ImageLoc) : ResidentMap :=
  match m with
  | [] => []
  | (k', v') :: rest => if k' = k then rest else (k', v') :: merase rest k

/-- The waiters table `ioreadwaiting : map[imageLoc][]chan<- *image.RGBA`;
reply channels are identifiers. -/
abbrev Waiters := List (ImageLoc × List Nat)

/-- Waiters lookup. -/
def wfind (w : Waiters) (k : ImageLoc) : Option (List Nat) :=
  match w with
  | [] => none
  | (k', v) :: rest => if k' = k then some v else wfind rest k

/-- Waiters store. -/
def winsert (w : Waiters) (k : ImageLoc) (v : List Nat) : Waiters :=
  match w with
  | [] => [(k, v)]
  | (k', v') :: rest => if k' = k then (k', v) :: rest else (k', v') :: winsert rest k v

/-- Waiters delete. -/
def werase (w : Waiters) (k : ImageLoc) : Waiters :=
  match w with
  | [] => []
  | (k', v') :: rest => if k' = k then rest else (k', v') :: werase rest k

/-! ## Actor state and observable events -/

/-- The state owned by `imageCacheProcessor`, plus the heap of live
`*image.RGBA` buffers (indices are the pointers). -/
structure ActorState where
  imageCache : ResidentMap
  ioreadwaiting : Waiters
  heap : List Raster

/-- The empty initial state. -/
def initState : ActorState := { imageCache := [], ioreadwaiting := [], heap := [] }

/-- Read a raster from the heap through a pointer. -/
def hget (h : List Raster) (ref : Nat) : Raster := h.getD ref (newRGBA 0 0)

/-- Update the raster behind a pointer in place. -/
def hset (h : List Raster) (ref : Nat) (r : Raster) : List Raster := h.set ref r

/-- Channel and queue interactions performed by one actor step. -/
inductive Ev where
  | send (ch : Nat) (r : Raster)
  | closeCh (ch : Nat)
  | ioTask (t : IOTask)

/-- Does an event list enqueue any task to the I/O pool? -/
def hasIOTask (evs : List Ev) : Bool :=
  evs.any fun e => match e with | .ioTask _ => true | _ => false

/-! ## The LRU eviction block (cache.go lines 196-206, repeated verbatim at
248-258 and 306-316) -/

/-- The eviction scan: `oldest := time.Now(); oldestk := imageLoc{};
for k, v := range imageCache { if oldest.After(v.lastUse) { ... } }`.
Returns the strictly-smallest `lastUse` seen (starting from `now`) and its
key; when no entry beats `now` the zero `imageLoc{}` is returned, and the
following `delete` is a no-op.  Go iterates the map in unspecified order;
the model iterates in list order, a deterministic refinement that agrees
with the source whenever the minimum is unique. -/
def findOldest (now : Nat) (m : ResidentMap) : Nat × ImageLoc :=
  m.foldl
    (fun acc kv => if kv.2.lastUse < acc.1 then (kv.2.lastUse, kv.1) else acc)
    (now, { world := "", dimension := "", layer := "", s := 0, x := 0, z := 0 })

/-- `if len(imageCache) > imageCacheMaxCache { ...; delete(imageCache, oldestk) }`.
Note the scan enqueues no write for the removed entry, dirty or not. -/
def evictIfOver (now : Nat) (m : ResidentMap) : ResidentMap :=
  if m.length > imageCacheMaxCache then merase m (findOldest now m).2 else m

/-! ## Actor steps, one per branch of the `select` in `imageCacheProcessor` -/

/-- I/O completion arriving on `ioreturn` (cache.go lines 142-153).  Only a
successful read (`p.img != nil`) is acted on: the raster is sent to every
registered waiter (the same buffer, not copies) and the waiters entry is
deleted.  The resident map is not touched — the loaded raster is *not*
inserted into `imageCache`. -/
def ioReturnStep (st : ActorState) (p : IOTask) : ActorState × List Ev :=
  match p.img with
  | some r =>
    match wfind st.ioreadwaiting p.loc with
    | none => (st, [])          -- "Useless read?"
    | some ws =>
      ({ st with ioreadwaiting := werase st.ioreadwaiting p.loc },
       ws.map fun ch => Ev.send ch r)
  | none => (st, [])

/-- Read at `S = L` (cache.go lines 160-175): resident hit replies with a
copy and refreshes `lastUse`; a miss joins the waiter list for the key or
creates it and enqueues a pool read. -/
def readExact (now : Nat) (st : ActorState) (loc : ImageLoc) (ch : Nat) :
    ActorState × List Ev :=
  match mfind st.imageCache loc with
  | some i =>
    ({ st with imageCache := minsert st.imageCache loc { i with lastUse := now } },
     [.send ch (copyImage (hget st.heap i.imgRef))])
  | none =>
    match wfind st.ioreadwaiting loc with
    | some w =>
      ({ st with ioreadwaiting := winsert st.ioreadwaiting loc (w ++ [ch]) }, [])
    | none =>
      ({ st with ioreadwaiting := winsert st.ioreadwaiting loc [ch] },
       [.ioTask { loc := loc, img := none }])

/-- Tail of the zoom-in read (cache.go lines 213-218): build the output
raster of side `is = powarr[S]·16`, and draw the storage tile over it with
source offset `pt = ((ix/powarr[S])·is, (iz/powarr[S])·is)`. -/
def zoomInReply (st : ActorState) (loc : ImageLoc) (ch : Nat) (i : CachedImage)
    (ix iz : Int) : ActorState × List Ev :=
  let isz := (powAt loc.s * 16).toNat
  let ptx := (Int.tdiv ix (powAt loc.s) * (isz : Int)).toNat
  let pty := (Int.tdiv iz (powAt loc.s) * (isz : Int)).toNat
  let ret := drawOver (newRGBA isz isz) 0 0 isz isz (hget st.heap i.imgRef) ptx pty
  (st, [.send ch ret])

/-- Read at `S < L` (cache.go lines 176-219): locate the containing storage
tile; on a resident miss, load it synchronously inside the actor (closing
the reply on any load error), mark it clean, run the eviction check, and
insert it; on a hit refresh `lastUse`.  Then crop-reply. -/
def readZoomIn (disk : Disk) (now : Nat) (st : ActorState) (loc : ImageLoc) (ch : Nat) :
    ActorState × List Ev :=
  let ax := loc.x * powAt loc.s
  let az := loc.z * powAt loc.s
  let rx := (icAT ax az).1
  let rz := (icAT ax az).2
  let ix := (icIN ax az).1
  let iz := (icIN ax az).2
  let rl : ImageLoc := { loc with s := (imageCacheStorageLevel : Int), x := rx, z := rz }
  match mfind st.imageCache rl with
  | none =>
    match cacheLoad disk loc.world loc.dimension loc.layer (imageCacheStorageLevel : Int) rx rz with
    | .error _ => (st, [.closeCh ch])
    | .ok img =>
      let ref := st.heap.length
      let i : CachedImage := { imgRef := ref, syncedToDisk := true, lastUse := now }
      let st' : ActorState :=
        { st with heap := st.heap ++ [img],
                  imageCache := minsert (evictIfOver now st.imageCache) rl i }
      zoomInReply st' loc ch i ix iz
  | some i0 =>
    let i : CachedImage := { i0 with lastUse := now }
    zoomInReply { st with imageCache := minsert st.imageCache rl i } loc ch i ix iz

/-- One iteration of the zoom-out tile loop (cache.go lines 232-265) for
loop indices `(x, z)`: fetch storage tile `(bx+x, bz+z)` (resident, else
synchronous load with LRU insert; load errors skip the tile), then blit it
into the output at `(x·512, z·512)`.  A resident hit uses the entry as-is:
its `lastUse` is not refreshed. -/
def zoomOutTile (disk : Disk) (now : Nat) (base : ImageLoc) (bx bz : Int)
    (acc : ActorState × Raster) (xz : Nat × Nat) : ActorState × Raster :=
  let st := acc.1
  let ret := acc.2
  let rx := bx + (xz.1 : Int)
  let rz := bz + (xz.2 : Int)
  let rl : ImageLoc := { base with s := (imageCacheStorageLevel : Int), x := rx, z := rz }
  let w := (powAt (imageCacheStorageLevel : Int)).toNat * 16
  match mfind st.imageCache rl with
  | some i =>
    (st, drawSrc ret (xz.1 * w) (xz.2 * w) (xz.1 * w + w) (xz.2 * w + w)
           (hget st.heap i.imgRef) 0 0)
  | none =>
    match cacheLoad disk base.world base.dimension base.layer
        (imageCacheStorageLevel : Int) rx rz with
    | .error _ => (st, ret)   -- continue: the tile region stays transparent
    | .ok img =>
      let ref := st.heap.length
      let i : CachedImage := { imgRef := ref, syncedToDisk := true, lastUse := now }
      let st' : ActorState :=
        { st with heap := st.heap ++ [img],
                  imageCache := minsert (evictIfOver now st.imageCache) rl i }
      (st', drawSrc ret (xz.1 * w) (xz.2 * w) (xz.1 * w + w) (xz.2 * w + w)
              (hget st'.heap i.imgRef) 0 0)

/-- Read at `S > L` (cache.go lines 220-266): requests above the cap 9
close the reply at once; otherwise compose an `rs × rs` grid of storage
tiles (`rs = powarr[S-L]`) into a raster of side `rs·powarr[L]·16`,
iterating `x` in the outer loop and `z` in the inner one. -/
def readZoomOut (disk : Disk) (now : Nat) (st : ActorState) (loc : ImageLoc) (ch : Nat) :
    ActorState × List Ev :=
  if loc.s > 9 then (st, [.closeCh ch])
  else
    let ax := loc.x * powAt loc.s
    let az := loc.z * powAt loc.s
    let bx := (icAT ax az).1
    let bz := (icAT ax az).2
    let rs := (powAt (loc.s - (imageCacheStorageLevel : Int))).toNat
    let side := rs * (powAt (imageCacheStorageLevel : Int)).toNat * 16
    let res := (List.range rs).foldl
      (fun acc x => (List.range rs).foldl
        (fun acc2 z => zoomOutTile disk now loc bx bz acc2 (x, z)) acc)
      (st, newRGBA side side)
    (res.1, [.send ch res.2])

/-- Dispatch of a read message (cache.go lines 155-267) on the requested
zoom level. -/
def readStep (disk : Disk) (now : Nat) (st : ActorState) (loc : ImageLoc) (ch : Nat) :
    ActorState × List Ev :=
  if loc.s = (imageCacheStorageLevel : Int) then readExact now st loc ch
  else if loc.s < (imageCacheStorageLevel : Int) then readZoomIn disk now st loc ch
  else readZoomOut disk now st loc ch

/-- Shared tail of the `S = 0` write-miss path (cache.go lines 305-322):
set `lastUse`, run the eviction check, stamp the 16×16 raster at
`(ix·16, iz·16)` with `draw.Src`, mark dirty, and store the entry. -/
def writeStampMiss (now : Nat) (st : ActorState) (rl : ImageLoc) (ix iz : Int)
    (img base : Raster) : ActorState × List Ev :=
  let ref := st.heap.length
  let stamped := drawSrc base (ix.toNat * 16) (iz.toNat * 16)
    (ix.toNat * 16 + 16) (iz.toNat * 16 + 16) img 0 0
  ({ st with heap := st.heap ++ [stamped],
             imageCache := minsert (evictIfOver now st.imageCache) rl
               { imgRef := ref, syncedToDisk := false, lastUse := now } }, [])

/-- A write message (cache.go lines 268-323).
`S = L`: a miss stores the incoming raster as a new dirty entry; a hit
draws the incoming raster over the shared resident buffer, but the
`lastUse`/`syncedToDisk` updates are made on a local copy of the map value
and never stored back, so the map itself is unchanged.
`S ∉ {0, L}`: silently ignored.
`S = 0`: stamp into the containing storage tile; a miss loads the tile
from disk (a missing file becomes a fresh transparent 512×512 raster, any
other load error aborts the write), then stamps, marks dirty and inserts
with the eviction check; a hit stamps the shared buffer in place and
re-stores the entry with `syncedToDisk = false` and its *old* `lastUse`. -/
def writeStep (disk : Disk) (now : Nat) (st : ActorState) (loc : ImageLoc) (img : Raster) :
    ActorState × List Ev :=
  if loc.s = (imageCacheStorageLevel : Int) then
    match mfind st.imageCache loc with
    | none =>
      let ref := st.heap.length
      ({ st with heap := st.heap ++ [img],
                 imageCache := minsert st.imageCache loc
                   { imgRef := ref, syncedToDisk := false, lastUse := now } }, [])
    | some iimg =>
      let old := hget st.heap iimg.imgRef
      ({ st with heap := hset st.heap iimg.imgRef (drawOver old 0 0 old.w old.h img 0 0) }, [])
  else if loc.s ≠ 0 then (st, [])
  else
    let rx := (icAT loc.x loc.z).1
    let rz := (icAT loc.x loc.z).2
    let ix := (icIN loc.x loc.z).1
    let iz := (icIN loc.x loc.z).2
    let rl : ImageLoc := { loc with s := (imageCacheStorageLevel : Int), x := rx, z := rz }
    match mfind st.imageCache rl with
    | some i =>
      let old := hget st.heap i.imgRef
      let stamped := drawSrc old (ix.toNat * 16) (iz.toNat * 16)
        (ix.toNat * 16 + 16) (iz.toNat * 16 + 16) img 0 0
      ({ st with heap := hset st.heap i.imgRef stamped,
                 imageCache := minsert st.imageCache rl { i with syncedToDisk := false } }, [])
    | none =>
      match cacheLoad disk loc.world loc.dimension loc.layer
          (imageCacheStorageLevel : Int) rx rz with
      | .error .decodeFailed => (st, [])   -- non-NotExist load error: log and break
      | .error .notExist =>
        let side := (powAt (imageCacheStorageLevel : Int)).toNat * 16
        writeStampMiss now st rl ix iz img (newRGBA side side)
      | .ok r => writeStampMiss now st rl ix iz img r

/-- Disk mutation performed by a successful `cacheSave` for key `k`. -/
def diskWrite (d : Disk) (k : ImageLoc) (r : Raster) : Disk :=
  fun k' => if k' = k then .file r else d k'

/-- The flush tick (cache.go lines 324-342): for every entry with
`syncedToDisk = false`, call `cacheSave` synchronously (no pool task);
failed saves (`saveErr`) are skipped.  The loop variable `v` is a Go
per-iteration copy, and `v.syncedToDisk = true` is never stored back into
the map, so the actor state is returned unchanged — no dirty flag is
cleared. -/
def flushFold (saveErr : ImageLoc → Bool) (h : List Raster) (m : ResidentMap)
    (disk : Disk) : Disk :=
  m.foldl
    (fun d kv =>
      if kv.2.syncedToDisk then d
      else if saveErr kv.1 then d
      else diskWrite d kv.1 (hget h kv.2.imgRef))
    disk

/-- See the doc comment above `flushFold`: the tick walks the map and
saves the dirty entries; the actor state comes back as it went in. -/
def flushTick (saveErr : ImageLoc → Bool) (st : ActorState) (disk : Disk) :
    ActorState × Disk :=
  (st, flushFold saveErr st.heap st.imageCache disk)

/-- One `imageCacheWorker` iteration (cache.go lines 80-99).  A read task
(`img = none`) loads the file at storage level `L`; only a *successful*
load posts a completion on `ioreturn` — both `os.ErrNotExist` and decode
failures hit `continue`, posting nothing.  A write task saves the file
(at level `L`) and posts nothing. -/
def imageCacheWorkerStep (disk : Disk) (p : IOTask) : Disk × Option IOTask :=
  match p.img with
  | none =>
    match cacheLoad disk p.loc.world p.loc.dimension p.loc.layer
        (imageCacheStorageLevel : Int) p.loc.x p.loc.z with
    | .ok r => (disk, some { p with img := some r })
    | .error _ => (disk, none)
  | some r =>
    (diskWrite disk { p.loc with s := (imageCacheStorageLevel : Int) } r, none)

/-- `imageCacheGetBlockingLoc` (cache.go lines 357-368), viewed against the
events later emitted towards its reply channel: the first value received
is returned (`some (some r)`), a close before any value returns the nil
sentinel (`some none`), and if the channel is never sent on nor closed the
caller blocks forever (`none`). -/
def imageCacheGetBlockingLoc (evs : List Ev) (ch : Nat) : Option (Option Raster) :=
  match evs with
  | [] => none
  | .send ch' r :: rest =>
    if ch' = ch then some (some r) else imageCacheGetBlockingLoc rest ch
  | .closeCh ch' :: rest =>
    if ch' = ch then some none else imageCacheGetBlockingLoc rest ch
  | .ioTask _ :: rest => imageCacheGetBlockingLoc rest ch

/-! ## Operation sequences against the actor -/

/-- A message or timer event processed by the actor loop. -/
inductive Op where
  | read (loc : ImageLoc) (ch : Nat)
  | write (loc : ImageLoc) (img : Raster)
  | ioret (t : IOTask)
  | flush (saveErr : ImageLoc → Bool)

/-- Process one `Op` at time `now`. -/
def applyOp (disk : Disk) (now : Nat) (st : ActorState) : Op → (ActorState × Disk) × List Ev
  | .read loc ch => let r := readStep disk now st loc ch; ((r.1, disk), r.2)
  | .write loc img => let r := writeStep disk now st loc img; ((r.1, disk), r.2)
  | .ioret t => let r := ioReturnStep st t; ((r.1, disk), r.2)
  | .flush saveErr => let r := flushTick saveErr st disk; ((r.1, r.2), [])

/-- Process a list of `Op`s, one tick apart, accumulating all events. -/
def runOps (st : ActorState) (disk : Disk) (now : Nat) :
    List Op → (ActorState × Disk) × List Ev
  | [] => ((st, disk), [])
  | op :: rest =>
    let r := applyOp disk now st op
    let r2 := runOps r.1.1 r.1.2 (now + 1) rest
    (r2.1, r.2 ++ r2.2)

/-! ## Disk paths (`cacheGetFilename`, `cacheSave`, cache.go lines 385-412) -/

/-- Digit-emission loop of `strconv.FormatInt(·, 10)`, structurally
recursive on a fuel argument (`fuel ≥ n` suffices, since `n/10 < n`). -/
def natDecCore : Nat → Nat → List Char
  | _, 0 => []
  | 0, _ + 1 => []
  | fuel + 1, n + 1 =>
    natDecCore fuel ((n + 1) / 10) ++ [Nat.digitChar ((n + 1) % 10)]

/-- Decimal digits of `n`, most significant first (empty for `0`). -/
def natDecAux (n : Nat) : List Char := natDecCore n n

/-- Decimal rendering of a natural number. -/
def natDec (n : Nat) : String :=
  if n = 0 then "0" else String.mk (natDecAux n)

/-- `strconv.FormatInt(int64(i), 10)`: decimal, `'-'`-prefixed when
negative. -/
def formatInt (i : Int) : String :=
  if i < 0 then "-" ++ natDec i.natAbs else natDec i.toNat

/-- `strings.Join(elems, "/")`. -/
def joinSlash : List String → String
  | [] => ""
  | [e] => e
  | e :: rest => e ++ "/" ++ joinSlash rest

/-- Split a character list at every '/' (the segment view of a path that
`path.Clean` processes); mirrors `String.splitOn "/"` semantics:
`splitSlash "" = [""]`, `splitSlash "a//b" = ["a", "", "b"]`. -/
def splitSlash : List Char → List (List Char)
  | [] => [[]]
  | c :: rest =>
    if c = '/' then [] :: splitSlash rest
    else
      match splitSlash rest with
      | [] => [[c]]
      | seg :: segs => (c :: seg) :: segs

/-- Does the path begin with '/'? (`path.IsAbs`, the `rooted` flag of
`path.Clean`.) -/
def isRooted (p : String) : Bool :=
  match p.data with
  | c :: _ => c = '/'
  | [] => false

/-- One step of `path.Clean`'s lexical loop over slash-separated
segments, maintaining the output stack in reverse: "" and "." segments
are dropped; ".." pops the previous real segment, is kept on top of a
".." already emitted, and vanishes at the root of a rooted path. -/
def cleanStep (rooted : Bool) (stack : List (List Char)) (seg : List Char) :
    List (List Char) :=
  if seg = [] ∨ seg = ['.'] then stack
  else if seg = ['.', '.'] then
    match stack with
    | top :: rest => if top = ['.', '.'] then seg :: stack else rest
    | [] => if rooted then [] else [['.', '.']]
  else seg :: stack

/-- `path.Clean(p)`: lexical cleaning — process the slash-separated
segments left to right, then rejoin; an empty result is "/" for rooted
paths and "." otherwise. -/
def pathClean (p : String) : String :=
  let rooted := isRooted p
  let stack := ((splitSlash p.data).foldl (cleanStep rooted) []).reverse
  if stack = [] then (if rooted then "/" else ".")
  else (if rooted then "/" else "") ++ joinSlash (stack.map String.mk)

/-- `path.Join(elems...)`: all-empty input yields ""; otherwise the
non-empty elements are joined with "/" and the result passed through
`path.Clean`. -/
def pathJoin (elems : List String) : String :=
  if elems.filter (fun e => e ≠ "") = [] then ""
  else pathClean (joinSlash (elems.filter fun e => e ≠ ""))

/-- `path.Dir(p)`: everything up to (and including) the final slash,
cleaned; "." when `p` has no slash. -/
def pathDir (p : String) : String :=
  match (splitSlash p.data).dropLast with
  | [] => pathClean ""
  | segs => pathClean (String.mk (segs.foldr (fun s acc => s ++ '/' :: acc) []))

/-- `getImageCachePrefix()`: the `CACHE_PREFIX` environment variable,
defaulting to "imageCache" when unset/empty. -/
def getImageCachePrefix (env : String) : String :=
  if env = "" then "imageCache" else env

/-- `cacheGetFilename(world, dim, render, s, x, z)` =
`path.Join(".", prefix, world, dim, render, FormatInt(s), FormatInt(x) + "x" + FormatInt(z) + ".png")`. -/
def cacheGetFilename (env world dim render : String) (s x z : Int) : String :=
  pathJoin [".", getImageCachePrefix env, world, dim, render, formatInt s,
    formatInt x ++ "x" ++ formatInt z ++ ".png"]

/-- A filesystem call made by `cacheSave`. -/
inductive FsAction where
  | mkdirAll (dir : String) (perm : Nat)
  | createFile (p : String)
  | encodePNG (p : String)
  | closeFile (p : String)
deriving DecidableEq, Repr

/-- The ordered filesystem calls of a successful `cacheSave` (cache.go
lines 397-412): `os.MkdirAll(path.Dir(storePath), 0764)`, then
`os.Create(storePath)`, then `png.Encode`, then `Close` (each failure
aborts the remainder). -/
def cacheSaveActions (env world dim render : String) (s x z : Int) : List FsAction :=
  let storePath := cacheGetFilename env world dim render s x z
  [.mkdirAll (pathDir storePath) 0o764, .createFile storePath,
   .encodePNG storePath, .closeFile storePath]

/-! ## Claim C8 (confirmed) -/

/-- C8: a read whose requested zoom exceeds the cap 9 closes the reply
channel immediately, leaves the actor state (resident map, waiters table,
heap) untouched, performs no disk access (its result does not depend on
the disk and it enqueues no I/O task), and the blocking get adapter
consequently returns the "no raster" sentinel. -/
theorem c8_read_above_cap (disk disk' : Disk) (now : Nat) (st : ActorState)
    (loc : ImageLoc) (ch : Nat) (h : loc.s > 9) :
    readStep disk now st loc ch = (st, [.closeCh ch]) ∧
    readStep disk now st loc ch = readStep disk' now st loc ch ∧
    hasIOTask (readStep disk now st loc ch).2 = false ∧
    imageCacheGetBlockingLoc (readStep disk now st loc ch).2 ch = some none := by
  have h1 : ¬ loc.s = (imageCacheStorageLevel : Int) := by
    simp only [imageCacheStorageLevel]; omega
  have h2 : ¬ loc.s < (imageCacheStorageLevel : Int) := by
    simp only [imageCacheStorageLevel]; omega
  simp [readStep, readZoomOut, h1, h2, h, hasIOTask, imageCacheGetBlockingLoc]

/-- Witness for C8: a concrete read at `S = 10`. -/
theorem c8_read_above_cap_witness :
    ((10 : Int) > 9) ∧
    readStep (fun _ => .absent) 0 initState
        { world := "w", dimension := "d", layer := "l", s := 10, x := 0, z := 0 } 7
      = (initState, [.closeCh 7]) :=
  ⟨by decide,
   (c8_read_above_cap (fun _ => .absent) (fun _ => .file (newRGBA 1 1)) 0 initState
     { world := "w", dimension := "d", layer := "l", s := 10, x := 0, z := 0 } 7
     (by decide)).1⟩

/-! ## Claim C10 (confirmed) -/

/-- C10: a write at `S = L` whose key is already resident leaves the
stored map entry untouched — its dirty flag and `lastUse` keep their
previous values (the source updates only a local copy of the map value and
never stores it back) — and only the shared pixel buffer behind the
entry's pointer is overlaid in place. -/
theorem c10_writeL_hit_keeps_metadata (disk : Disk) (now : Nat) (st : ActorState)
    (loc : ImageLoc) (img : Raster) (i : CachedImage)
    (hs : loc.s = (imageCacheStorageLevel : Int))
    (hit : mfind st.imageCache loc = some i) :
    (writeStep disk now st loc img).1.imageCache = st.imageCache ∧
    (writeStep disk now st loc img).1.ioreadwaiting = st.ioreadwaiting ∧
    (writeStep disk now st loc img).1.heap =
      hset st.heap i.imgRef
        (drawOver (hget st.heap i.imgRef) 0 0 (hget st.heap i.imgRef).w
          (hget st.heap i.imgRef).h img 0 0) ∧
    (writeStep disk now st loc img).2 = [] := by
  simp [writeStep, hs, hit]

/-- Concrete key for the C10 witness. -/
def c10loc : ImageLoc := { world := "w", dimension := "d", layer := "l", s := 5, x := 0, z := 0 }

/-- Concrete one-entry state for the C10 witness. -/
def c10st : ActorState :=
  { imageCache := [(c10loc, { imgRef := 0, syncedToDisk := true, lastUse := 3 })],
    ioreadwaiting := [], heap := [newRGBA 512 512] }

/-- Witness for C10: the clean resident entry stays clean (and keeps
`lastUse = 3`) after an `S = L` write at time 9. -/
theorem c10_writeL_hit_keeps_metadata_witness :
    (c10loc.s = (imageCacheStorageLevel : Int)) ∧
    mfind c10st.imageCache c10loc = some { imgRef := 0, syncedToDisk := true, lastUse := 3 } ∧
    (writeStep (fun _ => .absent) 9 c10st c10loc (newRGBA 16 16)).1.imageCache
      = c10st.imageCache :=
  ⟨by decide, by decide,
   (c10_writeL_hit_keeps_metadata (fun _ => .absent) 9 c10st c10loc (newRGBA 16 16)
     { imgRef := 0, syncedToDisk := true, lastUse := 3 } (by decide) (by decide)).1⟩

/-! ## Claim C1 (code defect) -/

/-- Concrete key for the C1 scenario. -/
def c1loc : ImageLoc := { world := "w", dimension := "d", layer := "l", s := 5, x := 0, z := 0 }

/-- C1 (code defect): a read at `S = L` for a key whose file is not on
disk registers the caller as a waiter and enqueues a pool read; the worker
finds `os.ErrNotExist` and `continue`s without posting any completion
(likewise for a decode failure), so no actor step ever closes the waiter's
channel or removes the key from the waiters table, and the blocking caller
waits forever on a channel nothing will touch. -/
theorem c1_absent_read_never_signals :
    (readStep (fun _ => .absent) 0 initState c1loc 7).1.ioreadwaiting = [(c1loc, [7])] ∧
    (readStep (fun _ => .absent) 0 initState c1loc 7).2
      = [.ioTask { loc := c1loc, img := none }] ∧
    (imageCacheWorkerStep (fun _ => .absent) { loc := c1loc, img := none }).2 = none ∧
    (imageCacheWorkerStep (fun _ => .corrupt) { loc := c1loc, img := none }).2 = none ∧
    imageCacheGetBlockingLoc (readStep (fun _ => .absent) 0 initState c1loc 7).2 7 = none :=
  ⟨rfl, rfl, rfl, rfl, rfl⟩

/-! ## Claim C2 (corrected) -/

/-- C2 amended: when the I/O read for a waited-on key returns a raster,
the actor sends that raster to every registered waiter and removes the key
from the waiters table, but does *not* insert the key into the resident
map, which is left unchanged. -/
theorem c2_amended_no_populate (st : ActorState) (loc : ImageLoc) (r : Raster)
    (ws : List Nat) (hw : wfind st.ioreadwaiting loc = some ws) :
    (ioReturnStep st { loc := loc, img := some r }).1.imageCache = st.imageCache ∧
    (ioReturnStep st { loc := loc, img := some r }).1.heap = st.heap ∧
    (ioReturnStep st { loc := loc, img := some r }).1.ioreadwaiting
      = werase st.ioreadwaiting loc ∧
    (ioReturnStep st { loc := loc, img := some r }).2 = ws.map (fun ch => Ev.send ch r) := by
  simp [ioReturnStep, hw]

/-- Concrete key for the C2 scenario. -/
def c2loc : ImageLoc := { world := "w", dimension := "d", layer := "l", s := 5, x := 1, z := 2 }

/-- Concrete waiting state for the C2 scenario. -/
def c2st : ActorState :=
  { imageCache := [], ioreadwaiting := [(c2loc, [4])], heap := [] }

/-- C2 counterexample: after the completed read is processed, the key is
*not* resident (the claim asserts it is inserted with `dirty = false`),
and an immediately following read of the same key misses and dispatches a
second I/O read instead of hitting. -/
theorem c2_counterexample :
    mfind (ioReturnStep c2st { loc := c2loc, img := some (newRGBA 512 512) }).1.imageCache
        c2loc = none ∧
    (readStep (fun _ => .file (newRGBA 512 512)) 1
        (ioReturnStep c2st { loc := c2loc, img := some (newRGBA 512 512) }).1 c2loc 5).2
      = [.ioTask { loc := c2loc, img := none }] :=
  ⟨rfl, rfl⟩

/-- Witness for the amended C2 at the concrete scenario: the waiter is
served, the waiters entry is gone, the resident map stays empty. -/
theorem c2_amended_no_populate_witness :
    wfind c2st.ioreadwaiting c2loc = some [4] ∧
    (ioReturnStep c2st { loc := c2loc, img := some (newRGBA 512 512) }).1.imageCache = [] ∧
    (ioReturnStep c2st { loc := c2loc, img := some (newRGBA 512 512) }).1.ioreadwaiting
      = werase c2st.ioreadwaiting c2loc :=
  ⟨by decide,
   (c2_amended_no_populate c2st c2loc (newRGBA 512 512) [4] (by decide)).1,
   (c2_amended_no_populate c2st c2loc (newRGBA 512 512) [4] (by decide)).2.2.1⟩

/-! ## Claim C4 (corrected) -/

/-- Unfolding one step of the flush scan. -/
theorem flushFold_cons (saveErr : ImageLoc → Bool) (h : List Raster)
    (k' : ImageLoc) (v' : CachedImage) (rest : ResidentMap) (d : Disk) :
    flushFold saveErr h ((k', v') :: rest) d
      = flushFold saveErr h rest
          (if v'.syncedToDisk then d
           else if saveErr k' then d
           else diskWrite d k' (hget h v'.imgRef)) := rfl

/-- Entries whose key differs from `k` never change the disk at `k`. -/
theorem flushFold_apply_notmem (saveErr : ImageLoc → Bool) (h : List Raster)
    (k : ImageLoc) :
    ∀ (m : ResidentMap) (d : Disk), (∀ kv ∈ m, kv.1 ≠ k) →
      flushFold saveErr h m d k = d k := by
  intro m
  induction m with
  | nil => intro d _; rfl
  | cons kv rest ih =>
    obtain ⟨k', v'⟩ := kv
    intro d hne
    have hk' : k' ≠ k := hne (k', v') (List.mem_cons_self _ rest)
    have hrest : ∀ kv' ∈ rest, kv'.1 ≠ k := fun kv' hm => hne kv' (List.mem_cons_of_mem _ hm)
    rw [flushFold_cons, ih _ hrest]
    split
    · rfl
    · split
      · rfl
      · simp [diskWrite, Ne.symm hk']

/-- A dirty entry whose save succeeds ends up on disk: its binding is
written and (keys being distinct) no later iteration disturbs it. -/
theorem flushFold_apply_dirty (saveErr : ImageLoc → Bool) (h : List Raster)
    (k : ImageLoc) (v : CachedImage) :
    ∀ (m : ResidentMap) (d : Disk), (m.map Prod.fst).Nodup →
      mfind m k = some v → v.syncedToDisk = false → saveErr k = false →
      flushFold saveErr h m d k = .file (hget h v.imgRef) := by
  intro m
  induction m with
  | nil => intro d _ hfind; simp [mfind] at hfind
  | cons kv rest ih =>
    obtain ⟨k', v'⟩ := kv
    intro d hnodup hfind hdirty herr
    rw [List.map_cons, List.nodup_cons] at hnodup
    by_cases hk : k' = k
    · have hv : v' = v := by
        rw [mfind, if_pos hk] at hfind
        exact Option.some.inj hfind
      subst hk hv
      have hout : ∀ kv' ∈ rest, kv'.1 ≠ k' := by
        intro kv' hm heq
        exact hnodup.1 (List.mem_map.mpr ⟨kv', hm, heq⟩)
      rw [flushFold_cons, if_neg (by simp [hdirty]), if_neg (by simp [herr]),
        flushFold_apply_notmem saveErr h k' rest _ hout]
      simp [diskWrite]
    · rw [mfind, if_neg hk] at hfind
      rw [flushFold_cons, ih _ hnodup.2 hfind hdirty herr]

/-- C4 amended: on a flush tick the actor saves every dirty entry
synchronously through the disk codec (no pool write task is issued — a
flush produces no events at all), and the resident map comes back
entirely unchanged: the `v.syncedToDisk = true` assignment acts on Go's
per-iteration copy of the map value, so every dirty flag keeps its value
after the tick. -/
theorem c4_amended_flush_saves_but_map_unchanged (saveErr : ImageLoc → Bool)
    (st : ActorState) (disk : Disk) (now : Nat) (k : ImageLoc) (v : CachedImage)
    (hnodup : (st.imageCache.map Prod.fst).Nodup)
    (hk : mfind st.imageCache k = some v)
    (hdirty : v.syncedToDisk = false) (hok : saveErr k = false) :
    (flushTick saveErr st disk).1 = st ∧
    (applyOp disk now st (.flush saveErr)).2 = [] ∧
    (flushTick saveErr st disk).2 k = .file (hget st.heap v.imgRef) := by
  refine ⟨rfl, rfl, ?_⟩
  exact flushFold_apply_dirty saveErr st.heap k v st.imageCache disk hnodup hk hdirty hok

/-- Concrete key for the C4 scenario. -/
def c4loc : ImageLoc := { world := "w", dimension := "d", layer := "l", s := 5, x := 0, z := 0 }

/-- Concrete one-dirty-entry state for the C4 scenario. -/
def c4st : ActorState :=
  { imageCache := [(c4loc, { imgRef := 0, syncedToDisk := false, lastUse := 0 })],
    ioreadwaiting := [], heap := [newRGBA 512 512] }

/-- C4 counterexample: after a flush tick whose (only, dirty) entry saves
successfully, that entry's dirty flag in the resident map is still set —
the claim's "dirty = false in the map after the tick" fails. -/
theorem c4_counterexample :
    (flushTick (fun _ => false) c4st (fun _ => .absent)).2 c4loc
      = .file (newRGBA 512 512) ∧
    mfind (flushTick (fun _ => false) c4st (fun _ => .absent)).1.imageCache c4loc
      = some { imgRef := 0, syncedToDisk := false, lastUse := 0 } :=
  ⟨by simp [flushTick, flushFold, c4st, diskWrite, hget], rfl⟩

/-- Witness for the amended C4 at the concrete scenario. -/
theorem c4_amended_flush_saves_but_map_unchanged_witness :
    (c4st.imageCache.map Prod.fst).Nodup ∧
    (flushTick (fun _ => false) c4st (fun _ => .absent)).1 = c4st :=
  ⟨by decide,
   (c4_amended_flush_saves_but_map_unchanged (fun _ => false) c4st (fun _ => .absent) 0
     c4loc { imgRef := 0, syncedToDisk := false, lastUse := 0 }
     (by decide) (by decide) (by decide) (by decide)).1⟩

/-! ## Claim C7 (corrected) -/

/-- C7 amended: which operations refresh `lastUse` of an already-resident
entry.  An exact-level (`S = L`) read hit and a zoom-in composition hit
store the entry back with `lastUse = now`; a zoom-out composition hit
leaves the actor state (hence the entry's `lastUse`) completely untouched;
an `S = L` write hit leaves the resident map untouched (its `lastUse`
update happens on a discarded copy); and an `S = 0` write hit re-stores
the entry dirty but with its *old* `lastUse`. -/
theorem c7_amended_last_use_per_path :
    (∀ (now : Nat) (st : ActorState) (loc : ImageLoc) (ch : Nat) (i : CachedImage),
        mfind st.imageCache loc = some i →
        (readExact now st loc ch).1.imageCache
          = minsert st.imageCache loc { i with lastUse := now }) ∧
    (∀ (disk : Disk) (now : Nat) (st : ActorState) (loc : ImageLoc) (ch : Nat)
        (i : CachedImage),
        mfind st.imageCache
            { loc with s := (imageCacheStorageLevel : Int),
                       x := (icAT (loc.x * powAt loc.s) (loc.z * powAt loc.s)).1,
                       z := (icAT (loc.x * powAt loc.s) (loc.z * powAt loc.s)).2 } = some i →
        (readZoomIn disk now st loc ch).1.imageCache
          = minsert st.imageCache
              { loc with s := (imageCacheStorageLevel : Int),
                         x := (icAT (loc.x * powAt loc.s) (loc.z * powAt loc.s)).1,
                         z := (icAT (loc.x * powAt loc.s) (loc.z * powAt loc.s)).2 }
              { i with lastUse := now }) ∧
    (∀ (disk : Disk) (now : Nat) (base : ImageLoc) (bx bz : Int)
        (acc : ActorState × Raster) (xz : Nat × Nat) (i : CachedImage),
        mfind acc.1.imageCache
            { base with s := (imageCacheStorageLevel : Int),
                        x := bx + (xz.1 : Int), z := bz + (xz.2 : Int) } = some i →
        (zoomOutTile disk now base bx bz acc xz).1 = acc.1) ∧
    (∀ (disk : Disk) (now : Nat) (st : ActorState) (loc : ImageLoc) (img : Raster)
        (i : CachedImage), loc.s = (imageCacheStorageLevel : Int) →
        mfind st.imageCache loc = some i →
        (writeStep disk now st loc img).1.imageCache = st.imageCache) ∧
    (∀ (disk : Disk) (now : Nat) (st : ActorState) (loc : ImageLoc) (img : Raster)
        (i : CachedImage), loc.s = 0 →
        mfind st.imageCache
            { loc with s := (imageCacheStorageLevel : Int),
                       x := (icAT loc.x loc.z).1, z := (icAT loc.x loc.z).2 } = some i →
        (writeStep disk now st loc img).1.imageCache
          = minsert st.imageCache
              { loc with s := (imageCacheStorageLevel : Int),
                         x := (icAT loc.x loc.z).1, z := (icAT loc.x loc.z).2 }
              { i with syncedToDisk := false }) := by
  refine ⟨?_, ?_, ?_, ?_, ?_⟩
  · intro now st loc ch i hit
    simp [readExact, hit]
  · intro disk now st loc ch i hit
    simp only [readZoomIn, hit]
    simp [zoomInReply]
  · intro disk now base bx bz acc xz i hit
    simp [zoomOutTile, hit]
  · intro disk now st loc img i hs hit
    simp [writeStep, hs, hit]
  · intro disk now st loc img i hs hit
    have h05 : ¬ ((0 : Int) = (imageCacheStorageLevel : Int)) := by
      simp [imageCacheStorageLevel]
    simp [writeStep, hs, h05, hit]

/-- Derived storage key in the C7 scenario. -/
def c7rl : ImageLoc := { world := "w", dimension := "d", layer := "l", s := 5, x := 0, z := 0 }

/-- Zoom-out read key in the C7 scenario. -/
def c7loc : ImageLoc := { world := "w", dimension := "d", layer := "l", s := 6, x := 0, z := 0 }

/-- One-clean-entry state in the C7 scenario; the entry was last touched
at tick 0. -/
def c7st : ActorState :=
  { imageCache := [(c7rl, { imgRef := 0, syncedToDisk := true, lastUse := 0 })],
    ioreadwaiting := [], heap := [newRGBA 512 512] }

/-- C7 counterexample: a zoom-out composition read at tick 5 touches the
resident storage tile `(0,0)` (it is blitted into the reply), yet the
entry's `lastUse` in the map still reads 0 afterwards — not the current
time 5 the claim requires. -/
theorem c7_counterexample :
    mfind (readZoomOut (fun _ => .absent) 5 c7st c7loc 3).1.imageCache c7rl
      = some { imgRef := 0, syncedToDisk := true, lastUse := 0 } := rfl

/-- Witness for the amended C7: each conjunct applied at a concrete hit.
The exact-read and zoom-in paths store `lastUse = 9` back; the zoom-out
tile step, `S = L` write and `S = 0` write leave the old `lastUse = 3`. -/
theorem c7_amended_last_use_per_path_witness :
    (readExact 9 c10st c10loc 2).1.imageCache
      = [(c10loc, { imgRef := 0, syncedToDisk := true, lastUse := 9 })] ∧
    (zoomOutTile (fun _ => .absent) 9 c7rl 0 0 (c7st, newRGBA 1024 1024) (0, 0)).1 = c7st ∧
    (writeStep (fun _ => .absent) 9 c10st c10loc (newRGBA 512 512)).1.imageCache
      = c10st.imageCache ∧
    (writeStep (fun _ => .absent) 9 c10st
        { world := "w", dimension := "d", layer := "l", s := 0, x := 3, z := 4 }
        (newRGBA 16 16)).1.imageCache
      = [(c10loc, { imgRef := 0, syncedToDisk := false, lastUse := 3 })] := by
  have h := c7_amended_last_use_per_path
  refine ⟨?_, ?_, ?_, ?_⟩
  · rw [h.1 9 c10st c10loc 2 { imgRef := 0, syncedToDisk := true, lastUse := 3 } (by decide)]
    decide
  · exact h.2.2.1 (fun _ => .absent) 9 c7rl 0 0 (c7st, newRGBA 1024 1024) (0, 0)
      { imgRef := 0, syncedToDisk := true, lastUse := 0 } (by decide)
  · exact h.2.2.2.1 (fun _ => .absent) 9 c10st c10loc (newRGBA 512 512)
      { imgRef := 0, syncedToDisk := true, lastUse := 3 } (by decide) (by decide)
  · rw [h.2.2.2.2 (fun _ => .absent) 9 c10st
      { world := "w", dimension := "d", layer := "l", s := 0, x := 3, z := 4 }
      (newRGBA 16 16) { imgRef := 0, syncedToDisk := true, lastUse := 3 } (by decide) (by decide)]
    decide

/-! ## Claim C9 (confirmed) -/

/-- `natDecAux` at 0. -/
theorem natDecAux_zero : natDecAux 0 = [] := rfl

/-- Any two sufficient fuels render the same digits. -/
theorem natDecCore_fuel : ∀ n f1 f2, n ≤ f1 → n ≤ f2 →
    natDecCore f1 n = natDecCore f2 n := by
  intro n
  induction n using Nat.strong_induction_on with
  | _ n ih =>
    intro f1 f2 h1 h2
    match n, f1, f2 with
    | 0, f1, f2 =>
      cases f1 <;> cases f2 <;> rfl
    | k + 1, a + 1, b + 1 =>
      have hdiv : (k + 1) / 10 < k + 1 := Nat.div_lt_self (Nat.succ_pos k) (by decide)
      show natDecCore a ((k + 1) / 10) ++ _ = natDecCore b ((k + 1) / 10) ++ _
      congr 1
      exact ih ((k + 1) / 10) hdiv a b (by omega) (by omega)

/-- Unfolding `natDecAux` at a nonzero argument. -/
theorem natDecAux_eq (n : Nat) (h : n ≠ 0) :
    natDecAux n = natDecAux (n / 10) ++ [Nat.digitChar (n % 10)] := by
  match n, h with
  | k + 1, _ =>
    have hdiv : (k + 1) / 10 < k + 1 := Nat.div_lt_self (Nat.succ_pos k) (by decide)
    show natDecCore k ((k + 1) / 10) ++ _ = natDecCore ((k + 1) / 10) ((k + 1) / 10) ++ _
    congr 1
    exact natDecCore_fuel ((k + 1) / 10) k ((k + 1) / 10) (by omega) (by omega)

/-- A nonzero number renders to at least one digit. -/
theorem natDecAux_ne_nil (n : Nat) (h : n ≠ 0) : natDecAux n ≠ [] := by
  rw [natDecAux_eq n h]; simp

/-- The leading character of a nonzero decimal rendering is the digit of
some `m` with `1 ≤ m ≤ 9` — in particular not `'0'`. -/
theorem natDecAux_head_ex : ∀ n : Nat, n ≠ 0 →
    ∃ m, m ≠ 0 ∧ m < 10 ∧ (natDecAux n).head? = some (Nat.digitChar m) := by
  intro n
  induction n using Nat.strong_induction_on with
  | _ n ih =>
    intro h
    by_cases h10 : n / 10 = 0
    · have hlt : n < 10 := (Nat.div_eq_zero_iff (by decide)).mp h10
      refine ⟨n % 10, ?_, Nat.mod_lt n (by decide), ?_⟩
      · rwa [Nat.mod_eq_of_lt hlt]
      · rw [natDecAux_eq n h, h10, natDecAux_zero]
        rfl
    · obtain ⟨m, hm0, hm10, hh⟩ :=
        ih (n / 10) (Nat.div_lt_self (Nat.pos_of_ne_zero h) (by decide)) h10
      refine ⟨m, hm0, hm10, ?_⟩
      rw [natDecAux_eq n h]
      rcases List.exists_cons_of_ne_nil (natDecAux_ne_nil _ h10) with ⟨a, t, heq⟩
      rw [heq] at hh ⊢
      simpa using hh

/-- Character data of `natDec` at a nonzero argument. -/
theorem natDec_data (n : Nat) (h : n ≠ 0) : (natDec n).data = natDecAux n := by
  simp [natDec, h]

/-- Character data of `formatInt` at a negative argument. -/
theorem formatInt_data_neg (i : Int) (h : i < 0) :
    (formatInt i).data = '-' :: natDecAux i.natAbs := by
  have hna : i.natAbs ≠ 0 := by
    intro h0
    rw [Int.natAbs_eq_zero] at h0
    omega
  rw [formatInt, if_pos h]
  rw [String.data_append, natDec_data _ hna]
  rfl

/-- Character data of `formatInt` at a nonnegative nonzero argument. -/
theorem formatInt_data_pos (i : Int) (h : 0 ≤ i) (h0 : i ≠ 0) :
    (formatInt i).data = natDecAux i.toNat := by
  have hna : i.toNat ≠ 0 := by
    intro hc
    rw [Int.toNat_eq_zero] at hc
    omega
  rw [formatInt, if_neg (by omega), natDec_data _ hna]

/-- `formatInt` never renders the empty string. -/
theorem formatInt_ne_empty (i : Int) : formatInt i ≠ "" := by
  intro hc
  have hd := congrArg String.data hc
  rcases lt_trichotomy i 0 with h | h | h
  · rw [formatInt_data_neg i h] at hd
    simp at hd
  · subst h
    simp [formatInt, natDec] at hc
  · rw [formatInt_data_pos i (le_of_lt h) (by omega)] at hd
    exact natDecAux_ne_nil _ (by simp; omega) hd

/-- Appending ".png" never yields the empty string. -/
theorem append_png_ne_empty (a : String) : a ++ ".png" ≠ "" := by
  intro hc
  have hd := congrArg String.data hc
  rw [String.data_append] at hd
  simp at hd

/-- The configured prefix is never empty. -/
theorem getImageCachePrefix_ne_empty (env : String) : getImageCachePrefix env ≠ "" := by
  unfold getImageCachePrefix
  split
  · decide
  · assumption

/-- Every character of a decimal rendering is a digit character. -/
theorem natDecAux_chars : ∀ n : Nat, ∀ c ∈ natDecAux n, ∃ m, m < 10 ∧ c = Nat.digitChar m := by
  intro n
  induction n using Nat.strong_induction_on with
  | _ n ih =>
    intro c hc
    by_cases h0 : n = 0
    · subst h0
      rw [natDecAux_zero] at hc
      simp at hc
    · rw [natDecAux_eq n h0] at hc
      rcases List.mem_append.mp hc with hm | hm
      · exact ih (n / 10) (Nat.div_lt_self (Nat.pos_of_ne_zero h0) (by decide)) c hm
      · rcases List.mem_singleton.mp hm with rfl
        exact ⟨n % 10, Nat.mod_lt n (by decide), rfl⟩

/-- Every character of `formatInt` is a digit or the minus sign. -/
theorem formatInt_chars (i : Int) :
    ∀ c ∈ (formatInt i).data, c = '-' ∨ ∃ m, m < 10 ∧ c = Nat.digitChar m := by
  intro c hc
  rcases lt_trichotomy i 0 with h | h | h
  · rw [formatInt_data_neg i h] at hc
    rcases List.mem_cons.mp hc with rfl | hm
    · exact Or.inl rfl
    · exact Or.inr (natDecAux_chars _ c hm)
  · subst h
    simp [formatInt, natDec] at hc
    exact Or.inr ⟨0, by decide, hc⟩
  · rw [formatInt_data_pos i (le_of_lt h) (by omega)] at hc
    exact Or.inr (natDecAux_chars _ c hc)

/-- `formatInt` renders no slash. -/
theorem formatInt_no_slash (i : Int) : '/' ∉ (formatInt i).data := by
  intro hm
  rcases formatInt_chars i '/' hm with h | ⟨m, hm10, h⟩
  · exact absurd h (by decide)
  · interval_cases m <;> exact absurd h (by decide)

/-- `formatInt` renders no dot. -/
theorem formatInt_no_dot (i : Int) : '.' ∉ (formatInt i).data := by
  intro hm
  rcases formatInt_chars i '.' hm with h | ⟨m, hm10, h⟩
  · exact absurd h (by decide)
  · interval_cases m <;> exact absurd h (by decide)

/-- `formatInt` never renders "." or "..". -/
theorem formatInt_ne_dots (i : Int) : formatInt i ≠ "." ∧ formatInt i ≠ ".." :=
  ⟨fun hc => formatInt_no_dot i (by rw [hc]; decide),
   fun hc => formatInt_no_dot i (by rw [hc]; decide)⟩

/-- The file component `<X>x<Z>.png` contains no slash. -/
theorem lastComp_no_slash (x z : Int) :
    '/' ∉ (formatInt x ++ "x" ++ formatInt z ++ ".png").data := by
  intro hm
  simp only [String.data_append, List.mem_append] at hm
  rcases hm with ((h1 | h2) | h3) | h4
  · exact formatInt_no_slash x h1
  · exact absurd h2 (by decide)
  · exact formatInt_no_slash z h3
  · exact absurd h4 (by decide)

/-- The file component `<X>x<Z>.png` is none of "", ".", "..". -/
theorem lastComp_ne (x z : Int) :
    (formatInt x ++ "x" ++ formatInt z ++ ".png") ≠ "" ∧
    (formatInt x ++ "x" ++ formatInt z ++ ".png") ≠ "." ∧
    (formatInt x ++ "x" ++ formatInt z ++ ".png") ≠ ".." := by
  refine ⟨?_, ?_, ?_⟩ <;>
  · intro hc
    have hlen := congrArg (fun t => t.data.length) hc
    simp only [String.data_append, List.length_append] at hlen
    rw [show (".png" : String).data.length = 4 from rfl] at hlen
    simp at hlen

/-- Splitting a slash-free character list. -/
theorem splitSlash_no_slash : ∀ l : List Char, '/' ∉ l → splitSlash l = [l] := by
  intro l
  induction l with
  | nil => intro _; rfl
  | cons c rest ih =>
    intro h
    have hc : ¬ (c = '/') := fun hc => h (hc ▸ List.mem_cons_self c rest)
    have hrest : '/' ∉ rest := fun hm => h (List.mem_cons_of_mem c hm)
    simp only [splitSlash, if_neg hc, ih hrest]

/-- Splitting at an explicit separator after a slash-free prefix. -/
theorem splitSlash_append : ∀ (a b : List Char), '/' ∉ a →
    splitSlash (a ++ '/' :: b) = a :: splitSlash b := by
  intro a
  induction a with
  | nil =>
    intro b _
    simp [splitSlash]
  | cons c rest ih =>
    intro b h
    have hc : ¬ (c = '/') := fun hc => h (hc ▸ List.mem_cons_self c rest)
    have hrest : '/' ∉ rest := fun hm => h (List.mem_cons_of_mem c hm)
    simp only [List.cons_append, List.append_eq, splitSlash, if_neg hc, ih b hrest]

/-- `String.mk` inverts `String.data`. -/
theorem str_mk_data (s : String) : String.mk s.data = s := rfl

/-- The empty string prepends trivially. -/
theorem empty_append_str (s : String) : "" ++ s = s := by
  obtain ⟨l⟩ := s
  rfl

/-- Inequality to "", "." and ".." carried to the character level. -/
theorem str_data_facts (s : String) (h0 : s ≠ "") (h1 : s ≠ ".") (h2 : s ≠ "..") :
    s.data ≠ [] ∧ s.data ≠ ['.'] ∧ s.data ≠ ['.', '.'] := by
  obtain ⟨l⟩ := s
  refine ⟨fun hc => h0 ?_, fun hc => h1 ?_, fun hc => h2 ?_⟩ <;>
  · cases hc
    rfl

/-- `cleanStep` drops a "." segment. -/
theorem cleanStep_dot (rooted : Bool) (stack : List (List Char)) :
    cleanStep rooted stack ['.'] = stack := by
  simp [cleanStep]

/-- `cleanStep` pushes a real segment. -/
theorem cleanStep_push (rooted : Bool) (stack : List (List Char)) (seg : List Char)
    (h0 : seg ≠ []) (h1 : seg ≠ ['.']) (h2 : seg ≠ ['.', '.']) :
    cleanStep rooted stack seg = seg :: stack := by
  simp [cleanStep, h0, h1, h2]

/-- Splitting the slash-join of slash-free components recovers them. -/
theorem splitSlash_joinSlash : ∀ elems : List String, elems ≠ [] →
    (∀ e ∈ elems, '/' ∉ e.data) →
    splitSlash (joinSlash elems).data = elems.map String.data := by
  intro elems
  induction elems with
  | nil => intro h; cases h rfl
  | cons e rest ih =>
    intro _ hns
    cases rest with
    | nil =>
      show splitSlash e.data = [e.data]
      exact splitSlash_no_slash e.data (hns e (List.mem_cons_self e []))
    | cons e2 rest2 =>
      have hdata : (joinSlash (e :: e2 :: rest2)).data
          = e.data ++ '/' :: (joinSlash (e2 :: rest2)).data := by
        show (e ++ "/" ++ joinSlash (e2 :: rest2)).data = _
        rw [String.data_append, String.data_append, List.append_assoc]
        rfl
      rw [hdata, splitSlash_append _ _ (hns e (List.mem_cons_self e _)),
        ih (by simp) (fun e' he' => hns e' (List.mem_cons_of_mem e he'))]
      rfl

/-- C9: the on-disk path is exactly
`<prefix>/<world>/<dimension>/<layer>/<S>/<X>x<Z>.png` (components joined
with single slashes, prefix defaulting to "imageCache"); `S`, `X`, `Z` are
rendered in decimal with no leading zero and a `'-'` prefix exactly for
negatives; and `cacheSave` first creates the parent directories with
permission `0o764`, then creates the file, then PNG-encodes into it.
The name components are assumed slash-free and none of "", ".", ".."
(otherwise `path.Clean` inside `path.Join` rewrites them, as the model's
`pathClean` does). -/
theorem c9_disk_layout (env world dim render : String) (s x z : Int)
    (hpre : '/' ∉ (getImageCachePrefix env).data ∧ getImageCachePrefix env ≠ "."
      ∧ getImageCachePrefix env ≠ "..")
    (hw : '/' ∉ world.data ∧ world ≠ "" ∧ world ≠ "." ∧ world ≠ "..")
    (hd : '/' ∉ dim.data ∧ dim ≠ "" ∧ dim ≠ "." ∧ dim ≠ "..")
    (hr : '/' ∉ render.data ∧ render ≠ "" ∧ render ≠ "." ∧ render ≠ "..") :
    cacheGetFilename env world dim render s x z
      = getImageCachePrefix env ++ "/" ++ world ++ "/" ++ dim ++ "/" ++ render ++ "/"
        ++ formatInt s ++ "/" ++ (formatInt x ++ "x" ++ formatInt z ++ ".png") ∧
    getImageCachePrefix "" = "imageCache" ∧
    (∀ i : Int, i ≠ 0 → (formatInt i).data.head? ≠ some '0') ∧
    (∀ i : Int, ((formatInt i).data.head? = some '-') ↔ i < 0) ∧
    (∀ i : Int, i < 0 → (formatInt i).data.tail.head? ≠ some '0') ∧
    formatInt 0 = "0" ∧
    cacheSaveActions env world dim render s x z
      = [.mkdirAll (pathDir (cacheGetFilename env world dim render s x z)) 0o764,
         .createFile (cacheGetFilename env world dim render s x z),
         .encodePNG (cacheGetFilename env world dim render s x z),
         .closeFile (cacheGetFilename env world dim render s x z)] := by
  refine ⟨?_, rfl, ?_, ?_, ?_, rfl, rfl⟩
  · have hP0 := getImageCachePrefix_ne_empty env
    have hPd := str_data_facts _ hP0 hpre.2.1 hpre.2.2
    have hwd := str_data_facts _ hw.2.1 hw.2.2.1 hw.2.2.2
    have hdd := str_data_facts _ hd.2.1 hd.2.2.1 hd.2.2.2
    have hrd := str_data_facts _ hr.2.1 hr.2.2.1 hr.2.2.2
    have hFSne := formatInt_ne_empty s
    have hFSdots := formatInt_ne_dots s
    have hFSd := str_data_facts _ hFSne hFSdots.1 hFSdots.2
    have hFLne := lastComp_ne x z
    have hFLd := str_data_facts _ hFLne.1 hFLne.2.1 hFLne.2.2
    have hns : ∀ e ∈ [".", getImageCachePrefix env, world, dim, render, formatInt s,
        formatInt x ++ "x" ++ formatInt z ++ ".png"], '/' ∉ e.data := by
      intro e he
      simp only [List.mem_cons, List.not_mem_nil, or_false] at he
      rcases he with rfl | rfl | rfl | rfl | rfl | rfl | rfl
      · decide
      · exact hpre.1
      · exact hw.1
      · exact hd.1
      · exact hr.1
      · exact formatInt_no_slash s
      · exact lastComp_no_slash x z
    unfold cacheGetFilename pathJoin
    rw [show (([".", getImageCachePrefix env, world, dim, render, formatInt s,
          formatInt x ++ "x" ++ formatInt z ++ ".png"].filter fun e => e ≠ "")
        : List String)
      = [".", getImageCachePrefix env, world, dim, render, formatInt s,
          formatInt x ++ "x" ++ formatInt z ++ ".png"] from by
        simp [List.filter, hP0, hw.2.1, hd.2.1, hr.2.1, hFSne, hFLne.1]]
    rw [if_neg (by simp)]
    have hd7 : (joinSlash [".", getImageCachePrefix env, world, dim, render, formatInt s,
        formatInt x ++ "x" ++ formatInt z ++ ".png"]).data
        = '.' :: '/' :: (joinSlash [getImageCachePrefix env, world, dim, render,
            formatInt s, formatInt x ++ "x" ++ formatInt z ++ ".png"]).data := by
      show ("." ++ "/" ++ joinSlash [getImageCachePrefix env, world, dim, render,
        formatInt s, formatInt x ++ "x" ++ formatInt z ++ ".png"]).data = _
      rw [String.data_append, String.data_append, List.append_assoc]
      rfl
    have hroot : isRooted (joinSlash [".", getImageCachePrefix env, world, dim, render,
        formatInt s, formatInt x ++ "x" ++ formatInt z ++ ".png"]) = false := by
      simp [isRooted, hd7]
    simp only [pathClean]
    rw [hroot, splitSlash_joinSlash _ (by simp) hns]
    simp only [List.map_cons, List.map_nil]
    rw [List.foldl_cons, cleanStep_dot,
      List.foldl_cons, cleanStep_push _ _ _ hPd.1 hPd.2.1 hPd.2.2,
      List.foldl_cons, cleanStep_push _ _ _ hwd.1 hwd.2.1 hwd.2.2,
      List.foldl_cons, cleanStep_push _ _ _ hdd.1 hdd.2.1 hdd.2.2,
      List.foldl_cons, cleanStep_push _ _ _ hrd.1 hrd.2.1 hrd.2.2,
      List.foldl_cons, cleanStep_push _ _ _ hFSd.1 hFSd.2.1 hFSd.2.2,
      List.foldl_cons, cleanStep_push _ _ _ hFLd.1 hFLd.2.1 hFLd.2.2,
      List.foldl_nil]
    rw [if_neg (by simp)]
    simp [joinSlash, str_mk_data, empty_append_str, String.append_assoc]
    apply String.ext
    simp [String.data_append]
  · intro i h0
    rcases lt_trichotomy i 0 with h | h | h
    · rw [formatInt_data_neg i h]
      simp
    · exact absurd h h0
    · rw [formatInt_data_pos i (le_of_lt h) h0]
      obtain ⟨m, hm0, hm10, hh⟩ := natDecAux_head_ex i.toNat (by simp; omega)
      rw [hh]
      interval_cases m
      · exact absurd rfl hm0
      all_goals decide
  · intro i
    constructor
    · intro hh
      by_contra hge
      rcases lt_trichotomy i 0 with h | h | h
      · exact hge h
      · subst h
        simp [formatInt, natDec] at hh
      · rw [formatInt_data_pos i (le_of_lt h) (by omega)] at hh
        obtain ⟨m, hm0, hm10, hh'⟩ := natDecAux_head_ex i.toNat (by simp; omega)
        rw [hh'] at hh
        have hmm := Option.some.inj hh
        interval_cases m <;> revert hmm <;> decide
    · intro h
      rw [formatInt_data_neg i h]
      rfl
  · intro i h
    rw [formatInt_data_neg i h]
    have hna : i.natAbs ≠ 0 := by
      intro h0
      rw [Int.natAbs_eq_zero] at h0
      omega
    obtain ⟨m, hm0, hm10, hh⟩ := natDecAux_head_ex i.natAbs hna
    simp only [List.tail_cons]
    rw [hh]
    interval_cases m
    · exact absurd rfl hm0
    all_goals decide

/-- Witness for C9 at world "w", dimension "d", layer "terrain",
`S = -5`, `X = 12`, `Z = -7`: the path is the slash-joined component
chain, which evaluates to the literal string asserted below. -/
theorem c9_disk_layout_witness :
    cacheGetFilename "" "w" "d" "terrain" (-5) 12 (-7)
      = getImageCachePrefix "" ++ "/" ++ "w" ++ "/" ++ "d" ++ "/" ++ "terrain" ++ "/"
        ++ formatInt (-5) ++ "/" ++ (formatInt 12 ++ "x" ++ formatInt (-7) ++ ".png") ∧
    cacheGetFilename "" "w" "d" "terrain" (-5) 12 (-7)
      = "imageCache/w/d/terrain/-5/12x-7.png" :=
  ⟨(c9_disk_layout "" "w" "d" "terrain" (-5) 12 (-7)
      (by decide) (by decide) (by decide) (by decide)).1,
   by decide⟩

/-! ## Association-list and run lemmas shared by C3 and C5 -/

/-- A key absent from every binding is not found. -/
theorem mfind_eq_none (m : ResidentMap) (k : ImageLoc)
    (h : ∀ kv ∈ m, kv.1 ≠ k) : mfind m k = none := by
  induction m with
  | nil => rfl
  | cons kv rest ih =>
    obtain ⟨k', v'⟩ := kv
    rw [mfind, if_neg (h (k', v') (List.mem_cons_self _ rest))]
    exact ih fun kv' hm => h kv' (List.mem_cons_of_mem _ hm)

/-- A key with a binding is found (as some value). -/
theorem mfind_isSome_of_mem (m : ResidentMap) (k : ImageLoc)
    (h : ∃ kv ∈ m, kv.1 = k) : ∃ v, mfind m k = some v := by
  induction m with
  | nil => simp at h
  | cons kv rest ih =>
    obtain ⟨k', v'⟩ := kv
    by_cases hk : k' = k
    · exact ⟨v', by rw [mfind, if_pos hk]⟩
    · rcases h with ⟨kv', hm, hkey⟩
      rcases List.mem_cons.mp hm with heq | hm'
      · rw [heq] at hkey
        exact absurd hkey hk
      · rcases ih ⟨kv', hm', hkey⟩ with ⟨v, hv⟩
        exact ⟨v, by rw [mfind, if_neg hk]; exact hv⟩

/-- Storing a fresh key appends its binding. -/
theorem minsert_fresh (m : ResidentMap) (k : ImageLoc) (v : CachedImage)
    (h : mfind m k = none) : minsert m k v = m ++ [(k, v)] := by
  induction m with
  | nil => rfl
  | cons kv rest ih =>
    obtain ⟨k', v'⟩ := kv
    rw [mfind] at h
    by_cases hk : k' = k
    · rw [if_pos hk] at h; cases h
    · rw [if_neg hk] at h
      rw [minsert, if_neg hk, ih h]
      rfl

/-- Storing grows the map by at most one binding. -/
theorem minsert_length_le (m : ResidentMap) (k : ImageLoc) (v : CachedImage) :
    (minsert m k v).length ≤ m.length + 1 := by
  induction m with
  | nil => simp [minsert]
  | cons kv rest ih =>
    obtain ⟨k', v'⟩ := kv
    rw [minsert]
    split
    · simp
    · simpa using ih

/-- Deleting a found key removes exactly one binding. -/
theorem merase_length (m : ResidentMap) (k : ImageLoc)
    (h : ∃ v, mfind m k = some v) : (merase m k).length + 1 = m.length := by
  induction m with
  | nil => simp [mfind] at h
  | cons kv rest ih =>
    obtain ⟨k', v'⟩ := kv
    rcases h with ⟨v, hv⟩
    rw [mfind] at hv
    by_cases hk : k' = k
    · rw [merase, if_pos hk]; rfl
    · rw [if_neg hk] at hv
      rw [merase, if_neg hk]
      simpa using ih ⟨v, hv⟩

/-- The eviction fold only ever lowers its accumulator timestamp. -/
theorem findOldest_fold_le (m : ResidentMap) :
    ∀ ak : Nat × ImageLoc,
      (m.foldl (fun acc kv => if kv.2.lastUse < acc.1 then (kv.2.lastUse, kv.1) else acc)
        ak).1 ≤ ak.1 := by
  induction m with
  | nil => intro ak; exact le_refl _
  | cons kv rest ih =>
    intro ak
    rw [List.foldl_cons]
    refine le_trans (ih _) ?_
    split
    · exact le_of_lt (by assumption)
    · exact le_refl _

/-- The eviction fold result is bounded by every member's timestamp. -/
theorem findOldest_fold_min (m : ResidentMap) :
    ∀ (ak : Nat × ImageLoc) (kv' : ImageLoc × CachedImage), kv' ∈ m →
      (m.foldl (fun acc kv => if kv.2.lastUse < acc.1 then (kv.2.lastUse, kv.1) else acc)
        ak).1 ≤ kv'.2.lastUse := by
  induction m with
  | nil => intro ak kv' hm; simp at hm
  | cons kv rest ih =>
    intro ak kv' hm
    rw [List.foldl_cons]
    rcases List.mem_cons.mp hm with heq | hm'
    · subst heq
      refine le_trans (findOldest_fold_le rest _) ?_
      split
      · exact le_refl _
      · omega
    · exact ih _ kv' hm'

/-- The eviction fold either keeps its initial accumulator or returns the
timestamp and key of some member. -/
theorem findOldest_fold_cases (m : ResidentMap) :
    ∀ ak : Nat × ImageLoc,
      m.foldl (fun acc kv => if kv.2.lastUse < acc.1 then (kv.2.lastUse, kv.1) else acc) ak
          = ak ∨
      ∃ kv ∈ m,
        m.foldl (fun acc kv => if kv.2.lastUse < acc.1 then (kv.2.lastUse, kv.1) else acc) ak
          = (kv.2.lastUse, kv.1) := by
  induction m with
  | nil => intro ak; exact Or.inl rfl
  | cons kv rest ih =>
    intro ak
    rw [List.foldl_cons]
    by_cases h : kv.2.lastUse < ak.1
    · rw [if_pos h]
      rcases ih (kv.2.lastUse, kv.1) with heq | ⟨kv', hm', heq'⟩
      · exact Or.inr ⟨kv, List.mem_cons_self _ _, heq⟩
      · exact Or.inr ⟨kv', List.mem_cons_of_mem _ hm', heq'⟩
    · rw [if_neg h]
      rcases ih ak with heq | ⟨kv', hm', heq'⟩
      · exact Or.inl heq
      · exact Or.inr ⟨kv', List.mem_cons_of_mem _ hm', heq'⟩

/-- When some resident entry is strictly older than `now`, the eviction
scan lands on an existing key. -/
theorem findOldest_found (now : Nat) (m : ResidentMap)
    (h : ∃ kv ∈ m, kv.2.lastUse < now) :
    ∃ v, mfind m (findOldest now m).2 = some v := by
  rcases h with ⟨kv0, hm0, hlt⟩
  rcases findOldest_fold_cases m
      (now, { world := "", dimension := "", layer := "", s := 0, x := 0, z := 0 }) with
    heq | ⟨kv, hm, heq⟩
  · exfalso
    have hle := findOldest_fold_min m
      (now, { world := "", dimension := "", layer := "", s := 0, x := 0, z := 0 }) kv0 hm0
    rw [heq] at hle
    omega
  · apply mfind_isSome_of_mem
    refine ⟨kv, hm, ?_⟩
    rw [findOldest, heq]

/-- Once the accumulator timestamp reaches 0, the eviction fold is done. -/
theorem findOldest_fold_floor (m : ResidentMap) (k : ImageLoc) :
    m.foldl (fun acc kv => if kv.2.lastUse < acc.1 then (kv.2.lastUse, kv.1) else acc)
        ((0 : Nat), k) = (0, k) := by
  induction m with
  | nil => rfl
  | cons kv rest ih =>
    rw [List.foldl_cons, if_neg (Nat.not_lt_zero _)]
    exact ih

/-- Splitting a run of operations. -/
theorem runOps_append (ops1 : List Op) :
    ∀ (st : ActorState) (disk : Disk) (now : Nat) (ops2 : List Op),
      runOps st disk now (ops1 ++ ops2)
        = ((runOps (runOps st disk now ops1).1.1 (runOps st disk now ops1).1.2
              (now + ops1.length) ops2).1,
           (runOps st disk now ops1).2
             ++ (runOps (runOps st disk now ops1).1.1 (runOps st disk now ops1).1.2
                  (now + ops1.length) ops2).2) := by
  induction ops1 with
  | nil => intro st disk now ops2; simp [runOps]
  | cons op rest ih =>
    intro st disk now ops2
    simp only [runOps, List.cons_append, List.length_cons, List.append_eq]
    rw [ih _ _ (now + 1) ops2]
    have hn : now + (rest.length + 1) = now + 1 + rest.length := by omega
    rw [hn]
    simp [List.append_assoc]

/-! ## A concrete run filling the cache (scenario for C3 and C5) -/

/-- A fully red 16×16 stamp. -/
def red16 : Raster := { w := 16, h := 16, pix := fun _ _ => (255, 0, 0, 255) }

/-- `S = 0` write key for chunk `(32·n, 0)`; its storage tile is `(n, 0)`. -/
def stampKey (n : Nat) : ImageLoc :=
  { world := "w", dimension := "d", layer := "l", s := 0, x := 32 * (n : Int), z := 0 }

/-- Storage-level key of tile `(n, 0)`. -/
def rlKey (n : Nat) : ImageLoc :=
  { world := "w", dimension := "d", layer := "l", s := 5, x := (n : Int), z := 0 }

/-- The resident entry created by the `n`-th stamp write (at tick `n`,
allocating heap slot `n`). -/
def stampEntry (n : Nat) : CachedImage :=
  { imgRef := n, syncedToDisk := false, lastUse := n }

/-- The storage raster those writes produce: transparent with the red
stamp at the tile origin. -/
def stampedTile : Raster := drawSrc (newRGBA 512 512) 0 0 16 16 red16 0 0

/-- `count` stamp writes at pairwise distinct storage tiles. -/
def stampOps (count : Nat) : List Op :=
  (List.range count).map fun n => .write (stampKey n) red16

/-- The all-absent disk. -/
def diskAbsent : Disk := fun _ => .absent

/-- `powarr[L]·16 = 512`. -/
theorem powAt_L_toNat : (powAt (imageCacheStorageLevel : Int)).toNat * 16 = 512 := rfl

/-- `powarr[5]·16 = 512` (cast-normalised form). -/
theorem powAt_five_toNat : (powAt (5 : Int)).toNat * 16 = 512 := rfl

/-- `icAT` on a stamp key's coordinates. -/
theorem icAT_stamp (n : Int) : icAT (32 * n) 0 = (n, 0) := by
  unfold icAT imageCacheStorageLevel
  norm_num

/-- `icIN` on a stamp key's coordinates. -/
theorem icIN_stamp (n : Int) : icIN (32 * n) 0 = (0, 0) := by
  unfold icIN imageCacheStorageLevel
  norm_num [Int.mul_fmod_right]

/-- `rlKey` is injective. -/
theorem rlKey_inj (a b : Nat) (h : rlKey a = rlKey b) : a = b := by
  have := congrArg ImageLoc.x h
  simp [rlKey] at this
  exact_mod_cast this

/-- One stamp write (`S = 0`) into a fresh storage tile, with no file on
disk and no eviction trigger: the new dirty entry is appended to the
resident map, the stamped raster is allocated, and no event is emitted. -/
theorem writeStep_stamp_fresh (disk : Disk) (now : Nat) (st : ActorState) (n : Nat)
    (hmiss : mfind st.imageCache (rlKey n) = none)
    (hlen : st.imageCache.length ≤ imageCacheMaxCache)
    (hdisk : disk (rlKey n) = .absent) :
    writeStep disk now st (stampKey n) red16
      = ({ imageCache := st.imageCache
             ++ [(rlKey n, { imgRef := st.heap.length, syncedToDisk := false, lastUse := now })],
           ioreadwaiting := st.ioreadwaiting,
           heap := st.heap ++ [stampedTile] }, []) := by
  rw [rlKey] at hmiss hdisk
  simp only [writeStep, stampKey, cacheLoad, writeStampMiss, evictIfOver]
  norm_num [icAT_stamp, icIN_stamp, imageCacheStorageLevel]
  simp only [hmiss, hdisk]
  rw [if_neg (by omega)]
  rw [minsert_fresh _ _ _ hmiss]
  norm_num [stampedTile, powAt_five_toNat, rlKey, imageCacheStorageLevel]

/-- A write at `S = L` whose key misses inserts unconditionally: no
eviction check guards this path. -/
theorem writeStep_L_fresh (disk : Disk) (now : Nat) (st : ActorState)
    (loc : ImageLoc) (img : Raster)
    (hs : loc.s = (imageCacheStorageLevel : Int))
    (hmiss : mfind st.imageCache loc = none) :
    writeStep disk now st loc img
      = ({ imageCache := st.imageCache
             ++ [(loc, { imgRef := st.heap.length, syncedToDisk := false, lastUse := now })],
           ioreadwaiting := st.ioreadwaiting,
           heap := st.heap ++ [img] }, []) := by
  simp only [writeStep, hs, if_pos, hmiss]
  rw [minsert_fresh _ _ _ hmiss]

/-- The cumulative effect of `count ≤ C + 1` stamp writes from the empty
state: `count` dirty entries at heap slots `0..count-1`, no events, the
disk untouched. -/
theorem stamp_run : ∀ count : Nat, count ≤ imageCacheMaxCache + 1 →
    runOps initState diskAbsent 0 (stampOps count)
      = (({ imageCache := (List.range count).map fun n => (rlKey n, stampEntry n),
            ioreadwaiting := [],
            heap := (List.range count).map fun _ => stampedTile }, diskAbsent), []) := by
  intro count
  induction count with
  | zero => intro _; rfl
  | succ c ih =>
    intro hc
    rw [stampOps, List.range_succ, List.map_append, List.map_cons, List.map_nil]
    rw [runOps_append]
    rw [show ((List.range c).map fun n => Op.write (stampKey n) red16) = stampOps c from rfl]
    rw [ih (by omega)]
    have hlen : ((List.range c).map fun n => (rlKey n, stampEntry n)).length
        = c := by simp
    have hmiss : mfind ((List.range c).map fun n => (rlKey n, stampEntry n)) (rlKey c)
        = none := by
      apply mfind_eq_none
      intro kv hm
      rcases List.mem_map.mp hm with ⟨a, ha, rfl⟩
      intro hkey
      have haeq := rlKey_inj a c hkey
      have halt := List.mem_range.mp ha
      omega
    rw [show (0 + (stampOps c).length) = c from by simp [stampOps]]
    simp only [runOps, applyOp]
    rw [writeStep_stamp_fresh diskAbsent c _ c hmiss (by rw [hlen]; omega) rfl]
    simp [stampEntry, List.range_succ]

/-! ## Claim C5 (corrected) -/

/-- Fresh `S = L` key outside the stamped range. -/
def c5key : ImageLoc := { world := "w", dimension := "d", layer := "l", s := 5, x := 1000, z := 0 }

/-- C5 counterexample: 513 stamp writes fill the resident map to exactly
`C + 1 = 513` entries (each write's eviction check runs *before* its
insertion and never fires below `C + 1`); one further write at `S = L` on
a fresh key inserts with no eviction check at all, leaving `C + 2 = 514`
entries immediately after an insertion — the claimed `≤ C + 1` bound
fails. -/
theorem c5_counterexample :
    ((runOps initState diskAbsent 0
        (stampOps (imageCacheMaxCache + 1)
          ++ [.write c5key (newRGBA 512 512)])).1.1.imageCache).length
      = imageCacheMaxCache + 2 := by
  rw [runOps_append, stamp_run (imageCacheMaxCache + 1) (le_refl _)]
  have hmiss : mfind ((List.range (imageCacheMaxCache + 1)).map
      fun n => (rlKey n, stampEntry n)) c5key = none := by
    apply mfind_eq_none
    intro kv hm
    rcases List.mem_map.mp hm with ⟨a, ha, rfl⟩
    intro hkey
    have halt := List.mem_range.mp ha
    have hx := congrArg ImageLoc.x hkey
    simp [rlKey, c5key] at hx
    simp [imageCacheMaxCache] at halt
    omega
  simp only [runOps, applyOp]
  rw [writeStep_L_fresh _ _ _ _ _ rfl hmiss]
  simp

/-- C5 amended: on the insertion paths that run the eviction scan
(zoom-in and zoom-out loads, `S = 0` write misses — the scan-then-insert
sequence `minsert (evictIfOver now m) k v`), the resident map stays within
`C + 1` entries; the scan runs *before* the insertion, and when the map
holds more than `C` entries and some resident entry is strictly older than
the current tick, the map is back to at most `C` entries right after the
scan.  Writes at `S = L` bypass the scan (see the counterexample). -/
theorem c5_amended_checked_insert_bound (now : Nat) (m : ResidentMap)
    (k : ImageLoc) (v : CachedImage)
    (hlen : m.length ≤ imageCacheMaxCache + 1)
    (hvict : m.length > imageCacheMaxCache → ∃ kv ∈ m, kv.2.lastUse < now) :
    (minsert (evictIfOver now m) k v).length ≤ imageCacheMaxCache + 1 ∧
    (m.length > imageCacheMaxCache → (evictIfOver now m).length ≤ imageCacheMaxCache) := by
  by_cases h : m.length > imageCacheMaxCache
  · have hv := findOldest_found now m (hvict h)
    have hm := merase_length m (findOldest now m).2 hv
    have he : (evictIfOver now m).length ≤ imageCacheMaxCache := by
      rw [evictIfOver, if_pos h]
      omega
    refine ⟨?_, fun _ => he⟩
    calc (minsert (evictIfOver now m) k v).length
        ≤ (evictIfOver now m).length + 1 := minsert_length_le _ _ _
      _ ≤ imageCacheMaxCache + 1 := by omega
  · rw [evictIfOver, if_neg h]
    refine ⟨?_, fun hc => absurd hc h⟩
    calc (minsert m k v).length ≤ m.length + 1 := minsert_length_le _ _ _
      _ ≤ imageCacheMaxCache + 1 := by omega

/-- Witness for the amended C5: a one-entry map inserted into stays within
the bound. -/
theorem c5_amended_checked_insert_bound_witness :
    ([(c10loc, { imgRef := 0, syncedToDisk := true, lastUse := 3 })] : ResidentMap).length
      ≤ imageCacheMaxCache + 1 ∧
    (minsert (evictIfOver 9 [(c10loc, { imgRef := 0, syncedToDisk := true, lastUse := 3 })])
        c2loc (stampEntry 0)).length ≤ imageCacheMaxCache + 1 :=
  ⟨by decide,
   (c5_amended_checked_insert_bound 9
      [(c10loc, { imgRef := 0, syncedToDisk := true, lastUse := 3 })] c2loc (stampEntry 0)
      (by decide) (fun hc => absurd hc (by decide))).1⟩

/-! ## Claim C3 (corrected) -/

/-- A stamp write into a fresh storage tile when the resident map already
holds more than `C` entries: identical to `writeStep_stamp_fresh` except
that the eviction scan fires first and removes the oldest entry — still
with no event emitted. -/
theorem writeStep_stamp_fresh_evict (disk : Disk) (now : Nat) (st : ActorState) (n : Nat)
    (hmiss : mfind st.imageCache (rlKey n) = none)
    (hlen : st.imageCache.length > imageCacheMaxCache)
    (hdisk : disk (rlKey n) = .absent) :
    writeStep disk now st (stampKey n) red16
      = ({ imageCache :=
             minsert (merase st.imageCache (findOldest now st.imageCache).2) (rlKey n)
               { imgRef := st.heap.length, syncedToDisk := false, lastUse := now },
           ioreadwaiting := st.ioreadwaiting,
           heap := st.heap ++ [stampedTile] }, []) := by
  rw [rlKey] at hmiss hdisk
  simp only [writeStep, stampKey, cacheLoad, writeStampMiss, evictIfOver]
  norm_num [icAT_stamp, icIN_stamp, imageCacheStorageLevel]
  simp only [hmiss, hdisk]
  rw [if_pos hlen]
  norm_num [stampedTile, powAt_five_toNat, rlKey, imageCacheStorageLevel]

/-- The full resident map after 513 stamp writes. -/
def map513 : ResidentMap :=
  (List.range (imageCacheMaxCache + 1)).map fun n => (rlKey n, stampEntry n)

/-- The eviction scan over the full map lands on tile 0, the oldest. -/
theorem findOldest_map513 :
    findOldest (imageCacheMaxCache + 1) map513 = (0, rlKey 0) := by
  rw [findOldest, map513,
    show List.range (imageCacheMaxCache + 1)
        = 0 :: (List.range imageCacheMaxCache).map Nat.succ from List.range_succ_eq_map _,
    List.map_cons, List.foldl_cons, if_pos (by decide)]
  exact findOldest_fold_floor _ _

/-- Deleting tile 0 from the full map leaves the 512 younger entries. -/
theorem merase_map513 :
    merase map513 (rlKey 0)
      = ((List.range imageCacheMaxCache).map Nat.succ).map
          fun n => (rlKey n, stampEntry n) := by
  rw [map513,
    show List.range (imageCacheMaxCache + 1)
        = 0 :: (List.range imageCacheMaxCache).map Nat.succ from List.range_succ_eq_map _,
    List.map_cons, merase, if_pos rfl]

/-- Storing under a different key does not affect a lookup. -/
theorem mfind_minsert_ne (m : ResidentMap) (k k' : ImageLoc) (v : CachedImage)
    (h : k' ≠ k) : mfind (minsert m k' v) k = mfind m k := by
  induction m with
  | nil => simp [minsert, mfind, h]
  | cons kv rest ih =>
    obtain ⟨k0, v0⟩ := kv
    rw [minsert]
    by_cases hk : k0 = k'
    · rw [if_pos hk, mfind, mfind, if_neg (hk ▸ h), if_neg (hk ▸ h)]
    · rw [if_neg hk, mfind, mfind]
      split
      · rfl
      · exact ih

/-- The 514-write run: 513 stamps filling the map, then one more stamp at
a fresh tile, which triggers the eviction of (dirty) tile 0. -/
def c3ops : List Op :=
  stampOps (imageCacheMaxCache + 1)
    ++ [.write (stampKey (imageCacheMaxCache + 1)) red16]

/-- C3 counterexample: in the run `c3ops`, the eviction step removes the
resident entry of tile 0, whose dirty flag is set, yet the whole run
emits *no* event at all — in particular no write request is enqueued to
the I/O pool — and the evicted tile's on-disk file is still absent at the
end, not equal to the evicted raster. -/
theorem c3_counterexample :
    (runOps initState diskAbsent 0 c3ops).2 = [] ∧
    mfind (runOps initState diskAbsent 0
        (stampOps (imageCacheMaxCache + 1))).1.1.imageCache (rlKey 0)
      = some (stampEntry 0) ∧
    (stampEntry 0).syncedToDisk = false ∧
    mfind (runOps initState diskAbsent 0 c3ops).1.1.imageCache (rlKey 0) = none ∧
    (runOps initState diskAbsent 0 c3ops).1.2 (rlKey 0) = .absent := by
  have hrun := stamp_run (imageCacheMaxCache + 1) (le_refl _)
  have hmiss : mfind ((List.range (imageCacheMaxCache + 1)).map
      fun n => (rlKey n, stampEntry n)) (rlKey (imageCacheMaxCache + 1)) = none := by
    apply mfind_eq_none
    intro kv hm
    rcases List.mem_map.mp hm with ⟨a, ha, rfl⟩
    intro hkey
    have haeq := rlKey_inj a _ hkey
    have halt := List.mem_range.mp ha
    omega
  have hfull : runOps initState diskAbsent 0 c3ops
      = (({ imageCache :=
              minsert (merase map513 (findOldest (imageCacheMaxCache + 1) map513).2)
                (rlKey (imageCacheMaxCache + 1)) (stampEntry (imageCacheMaxCache + 1)),
            ioreadwaiting := [],
            heap := ((List.range (imageCacheMaxCache + 1)).map fun _ => stampedTile)
              ++ [stampedTile] },
          diskAbsent), []) := by
    rw [c3ops, runOps_append, hrun]
    rw [show (0 + (stampOps (imageCacheMaxCache + 1)).length) = imageCacheMaxCache + 1
      from by simp [stampOps]]
    simp only [runOps, applyOp]
    rw [writeStep_stamp_fresh_evict diskAbsent (imageCacheMaxCache + 1) _
      (imageCacheMaxCache + 1) hmiss (by simp) rfl]
    simp [map513, stampEntry]
  refine ⟨?_, ?_, rfl, ?_, ?_⟩
  · rw [hfull]
  · rw [hrun]
    rw [show List.range (imageCacheMaxCache + 1)
        = 0 :: (List.range imageCacheMaxCache).map Nat.succ from List.range_succ_eq_map _,
      List.map_cons]
    rw [mfind, if_pos rfl]
  · rw [hfull]
    simp only [findOldest_map513, merase_map513]
    rw [mfind_minsert_ne _ _ _ _ (by
      intro hc
      have := rlKey_inj _ _ hc
      omega)]
    apply mfind_eq_none
    intro kv hm
    rcases List.mem_map.mp hm with ⟨a, ha, rfl⟩
    intro hkey
    have := rlKey_inj _ _ hkey
    rcases List.mem_map.mp ha with ⟨b, hb, rfl⟩
    omega
  · rw [hfull]
    rfl

/-- C3 amended: the eviction scan removes the minimal-`lastUse` entry
from the resident map without enqueuing any write request — the `S = 0`
write-miss step that triggers it emits no event at all and leaves the
disk untouched — so a dirty evicted raster is simply discarded and the
on-disk file keeps whatever content it had. -/
theorem c3_amended_evict_no_write (now : Nat) (st : ActorState) (rl : ImageLoc)
    (ix iz : Int) (img base : Raster) (disk : Disk) (loc : ImageLoc)
    (hlen : st.imageCache.length > imageCacheMaxCache) :
    (writeStampMiss now st rl ix iz img base).2 = [] ∧
    (applyOp disk now st (.write loc img)).1.2 = disk ∧
    (writeStampMiss now st rl ix iz img base).1.imageCache
      = minsert (merase st.imageCache (findOldest now st.imageCache).2) rl
          { imgRef := st.heap.length, syncedToDisk := false, lastUse := now } := by
  refine ⟨rfl, rfl, ?_⟩
  simp [writeStampMiss, evictIfOver, hlen]

/-- The state after the 513 stamp writes, used to witness the amended C3. -/
def st513 : ActorState :=
  { imageCache := map513,
    ioreadwaiting := [],
    heap := (List.range (imageCacheMaxCache + 1)).map fun _ => stampedTile }

/-- Witness for the amended C3 at the full concrete state. -/
theorem c3_amended_evict_no_write_witness :
    st513.imageCache.length > imageCacheMaxCache ∧
    (writeStampMiss (imageCacheMaxCache + 1) st513 (rlKey (imageCacheMaxCache + 1))
        0 0 red16 (newRGBA 512 512)).2 = [] :=
  ⟨by simp [st513, map513],
   (c3_amended_evict_no_write (imageCacheMaxCache + 1) st513
      (rlKey (imageCacheMaxCache + 1)) 0 0 red16 (newRGBA 512 512) diskAbsent
      (rlKey (imageCacheMaxCache + 1)) (by simp [st513, map513])).1⟩

/-! ## Claim C6 (confirmed) -/

/-- A stamp write (`S = 0`, any key) into the empty cache with nothing on
disk: the containing storage tile is created fresh and transparent,
stamped with `draw.Src` at `(ix·16, iz·16)`, and inserted dirty as heap
slot 0. -/
theorem writeStep_stamp0_empty (now : Nat) (world dim layer : String) (cx cz : Int)
    (img : Raster) :
    writeStep diskAbsent now initState
        { world := world, dimension := dim, layer := layer, s := 0, x := cx, z := cz } img
      = ({ imageCache := [({ world := world, dimension := dim, layer := layer,
                             s := (imageCacheStorageLevel : Int),
                             x := (icAT cx cz).1, z := (icAT cx cz).2 },
            { imgRef := 0, syncedToDisk := false, lastUse := now })],
           ioreadwaiting := [],
           heap := [drawSrc (newRGBA 512 512) ((icIN cx cz).1.toNat * 16)
             ((icIN cx cz).2.toNat * 16) ((icIN cx cz).1.toNat * 16 + 16)
             ((icIN cx cz).2.toNat * 16 + 16) img 0 0] }, []) := by
  have h05 : ¬ ((0 : Int) = (imageCacheStorageLevel : Int)) := by
    simp [imageCacheStorageLevel]
  simp [writeStep, h05, initState, diskAbsent, cacheLoad, writeStampMiss,
    evictIfOver, imageCacheMaxCache, minsert, mfind, powAt_L_toNat]

/-- An exact-level read against a one-entry resident map holding its key:
reply with a copy of the shared buffer and refresh `lastUse`. -/
theorem readStep_exact_hit_single (disk : Disk) (now : Nat) (k : ImageLoc)
    (e : CachedImage) (h : List Raster) (ch : Nat)
    (hs : k.s = (imageCacheStorageLevel : Int)) :
    readStep disk now { imageCache := [(k, e)], ioreadwaiting := [], heap := h } k ch
      = ({ imageCache := [(k, { e with lastUse := now })], ioreadwaiting := [], heap := h },
         [.send ch (copyImage (hget h e.imgRef))]) := by
  simp [readStep, hs, readExact, mfind, minsert]

/-- C6: the round-trip law, for every `S = 0` key and 16×16 raster:
`put({world,dim,layer,0,cx,cz}, r)` into the empty cache with no file on
disk, followed by a `get` of the containing storage key
`{world,dim,layer,L,icAT(cx,cz)}`, returns a 512×512 raster that carries
`r` on the sub-rectangle at pixel offset `(ix·16, iz·16)` — where
`(ix, iz) = icIN(cx, cz)` is the key's position within the storage tile —
and is fully transparent elsewhere; the resident entry is left dirty. -/
theorem c6_roundtrip (world dim layer : String) (cx cz : Int) (ch : Nat) (r : Raster)
    (hw : r.w = 16) (hh : r.h = 16) :
    ∃ g,
      imageCacheGetBlockingLoc
        (runOps initState diskAbsent 0
          [.write { world := world, dimension := dim, layer := layer, s := 0,
                    x := cx, z := cz } r,
           .read { world := world, dimension := dim, layer := layer,
                   s := (imageCacheStorageLevel : Int),
                   x := (icAT cx cz).1, z := (icAT cx cz).2 } ch]).2 ch
        = some (some g) ∧
      g.w = 512 ∧ g.h = 512 ∧
      (∀ x y : Nat,
        (icIN cx cz).1.toNat * 16 ≤ x → x < (icIN cx cz).1.toNat * 16 + 16 →
        (icIN cx cz).2.toNat * 16 ≤ y → y < (icIN cx cz).2.toNat * 16 + 16 →
        g.pix x y = r.pix (x - (icIN cx cz).1.toNat * 16) (y - (icIN cx cz).2.toNat * 16)) ∧
      (∀ x y : Nat, x < 512 → y < 512 →
        ¬((icIN cx cz).1.toNat * 16 ≤ x ∧ x < (icIN cx cz).1.toNat * 16 + 16 ∧
          (icIN cx cz).2.toNat * 16 ≤ y ∧ y < (icIN cx cz).2.toNat * 16 + 16) →
        g.pix x y = transparentPix) ∧
      (∃ v, mfind (runOps initState diskAbsent 0
          [.write { world := world, dimension := dim, layer := layer, s := 0,
                    x := cx, z := cz } r,
           .read { world := world, dimension := dim, layer := layer,
                   s := (imageCacheStorageLevel : Int),
                   x := (icAT cx cz).1, z := (icAT cx cz).2 } ch]).1.1.imageCache
          { world := world, dimension := dim, layer := layer,
            s := (imageCacheStorageLevel : Int),
            x := (icAT cx cz).1, z := (icAT cx cz).2 } = some v
        ∧ v.syncedToDisk = false) := by
  have hbx : (icIN cx cz).1.toNat < 32 := by
    show (Int.fmod cx (2 ^ imageCacheStorageLevel)).toNat < 32
    have h1 := Int.fmod_lt_of_pos cx
      (show (0 : Int) < 2 ^ imageCacheStorageLevel by norm_num [imageCacheStorageLevel])
    norm_num [imageCacheStorageLevel] at h1 ⊢
    omega
  have hby : (icIN cx cz).2.toNat < 32 := by
    show (Int.fmod cz (2 ^ imageCacheStorageLevel)).toNat < 32
    have h1 := Int.fmod_lt_of_pos cz
      (show (0 : Int) < 2 ^ imageCacheStorageLevel by norm_num [imageCacheStorageLevel])
    norm_num [imageCacheStorageLevel] at h1 ⊢
    omega
  have hrun : runOps initState diskAbsent 0
      [.write { world := world, dimension := dim, layer := layer, s := 0,
                x := cx, z := cz } r,
       .read { world := world, dimension := dim, layer := layer,
               s := (imageCacheStorageLevel : Int),
               x := (icAT cx cz).1, z := (icAT cx cz).2 } ch]
      = ((({ imageCache := [({ world := world, dimension := dim, layer := layer,
                               s := (imageCacheStorageLevel : Int),
                               x := (icAT cx cz).1, z := (icAT cx cz).2 },
              { imgRef := 0, syncedToDisk := false, lastUse := 0 + 1 })],
             ioreadwaiting := [],
             heap := [drawSrc (newRGBA 512 512) ((icIN cx cz).1.toNat * 16)
               ((icIN cx cz).2.toNat * 16) ((icIN cx cz).1.toNat * 16 + 16)
               ((icIN cx cz).2.toNat * 16 + 16) r 0 0] } : ActorState), diskAbsent),
         [.send ch (copyImage (drawSrc (newRGBA 512 512) ((icIN cx cz).1.toNat * 16)
           ((icIN cx cz).2.toNat * 16) ((icIN cx cz).1.toNat * 16 + 16)
           ((icIN cx cz).2.toNat * 16 + 16) r 0 0))]) := by
    simp only [runOps, applyOp]
    rw [writeStep_stamp0_empty 0 world dim layer cx cz r]
    rw [readStep_exact_hit_single diskAbsent (0 + 1) _ _ _ ch rfl]
    simp [hget]
  refine ⟨copyImage (drawSrc (newRGBA 512 512) ((icIN cx cz).1.toNat * 16)
    ((icIN cx cz).2.toNat * 16) ((icIN cx cz).1.toNat * 16 + 16)
    ((icIN cx cz).2.toNat * 16 + 16) r 0 0), ?_, rfl, rfl, ?_, ?_, ?_⟩
  · rw [hrun]
    simp [imageCacheGetBlockingLoc]
  · intro x y hx1 hx2 hy1 hy2
    simp only [copyImage, drawSrc, newRGBA]
    rw [if_pos ⟨hx1, hx2, hy1, hy2, by omega, by omega,
      by rw [hw]; omega, by rw [hh]; omega⟩]
    simp
  · intro x y hx hy hnot
    simp only [copyImage, drawSrc, newRGBA]
    rw [if_neg fun hc => hnot ⟨hc.1, hc.2.1, hc.2.2.1, hc.2.2.2.1⟩]
  · rw [hrun]
    exact ⟨{ imgRef := 0, syncedToDisk := false, lastUse := 0 + 1 }, by simp [mfind], rfl⟩

/-- Witness for C6 at the spec's example key `(3, 4)` with the all-red
stamp: the offsets evaluate to exactly `(48, 64)`, so the red
sub-rectangle is `[48..64) × [64..80)`. -/
theorem c6_roundtrip_witness :
    red16.w = 16 ∧ red16.h = 16 ∧
    ((icIN 3 4).1.toNat * 16 = 48 ∧ (icIN 3 4).2.toNat * 16 = 64) ∧
    (∃ g,
      imageCacheGetBlockingLoc
        (runOps initState diskAbsent 0
          [.write { world := "w", dimension := "d", layer := "L", s := 0,
                    x := 3, z := 4 } red16,
           .read { world := "w", dimension := "d", layer := "L",
                   s := (imageCacheStorageLevel : Int),
                   x := (icAT 3 4).1, z := (icAT 3 4).2 } 9]).2 9
        = some (some g) ∧
      g.w = 512 ∧ g.h = 512 ∧
      (∀ x y : Nat,
        (icIN 3 4).1.toNat * 16 ≤ x → x < (icIN 3 4).1.toNat * 16 + 16 →
        (icIN 3 4).2.toNat * 16 ≤ y → y < (icIN 3 4).2.toNat * 16 + 16 →
        g.pix x y = red16.pix (x - (icIN 3 4).1.toNat * 16) (y - (icIN 3 4).2.toNat * 16)) ∧
      (∀ x y : Nat, x < 512 → y < 512 →
        ¬((icIN 3 4).1.toNat * 16 ≤ x ∧ x < (icIN 3 4).1.toNat * 16 + 16 ∧
          (icIN 3 4).2.toNat * 16 ≤ y ∧ y < (icIN 3 4).2.toNat * 16 + 16) →
        g.pix x y = transparentPix) ∧
      (∃ v, mfind (runOps initState diskAbsent 0
          [.write { world := "w", dimension := "d", layer := "L", s := 0,
                    x := 3, z := 4 } red16,
           .read { world := "w", dimension := "d", layer := "L",
                   s := (imageCacheStorageLevel : Int),
                   x := (icAT 3 4).1, z := (icAT 3 4).2 } 9]).1.1.imageCache
          { world := "w", dimension := "d", layer := "L",
            s := (imageCacheStorageLevel : Int),
            x := (icAT 3 4).1, z := (icAT 3 4).2 } = some v
        ∧ v.syncedToDisk = false)) :=
  ⟨rfl, rfl, ⟨rfl, rfl⟩, c6_roundtrip "w" "d" "L" 3 4 9 red16 rfl rfl⟩
end MCWebChunk
